import Mathlib

/-!
# arptables over nf_tables: the ARP family translation layer

A shallow embedding of `iptables/nft-arp.c`: the flag codec
(`arpt_to_ipt_flags`, `ipt_to_arpt_flags`), the expression builder
(`nft_arp_add`), the expression parser (`nft_arp_parse_payload`,
`nft_rule_to_arpt_entry`), the equivalence check (`nft_arp_is_same`,
`nft_arp_rule_find`) and the renderer (`print_fw_details`).

Conventions.
* Machine integers are `Nat` (or `Int`), truncated with `% 2 ^ w` where the C
  code stores into a narrower object.
* Values of the record are kept as the unsigned integer the host reads from the
  field; the host is little-endian, so `ntohs` and `ntohl` swap bytes.
* A rule is its ordered list of expressions; the emitters append to it.
* `Option` results: `none` stands for an execution whose result the C program
  does not determine (a read of an unset local, a null target pointer, an
  out-of-bounds table read).
* Collaborators that live outside the file (the interface matcher, the target
  registry, the allocator, the resolver) are fields of `nft_shared`.
-/

namespace NftArp

/-! ## Constants of the kernel interface -/

/-- Inversion bits of `struct arpt_arp` (linux/netfilter_arp/arp_tables.h). -/
def ARPT_INV_VIA_IN : Nat := 0x0001
def ARPT_INV_VIA_OUT : Nat := 0x0002
def ARPT_INV_SRCIP : Nat := 0x0004
def ARPT_INV_TGTIP : Nat := 0x0008
def ARPT_INV_SRCDEVADDR : Nat := 0x0010
def ARPT_INV_TGTDEVADDR : Nat := 0x0020
def ARPT_INV_ARPOP : Nat := 0x0040
def ARPT_INV_ARPHRD : Nat := 0x0080
def ARPT_INV_ARPPRO : Nat := 0x0100
def ARPT_INV_ARPHLN : Nat := 0x0200
/-- All ten inversion bits of the ARP vocabulary. -/
def ARPT_INV_MASK : Nat := 0x03FF

/-- Inversion bits of `struct ipt_ip` (linux/netfilter_ipv4/ip_tables.h). -/
def IPT_INV_VIA_IN : Nat := 0x01
def IPT_INV_VIA_OUT : Nat := 0x02
def IPT_INV_TOS : Nat := 0x04
def IPT_INV_SRCIP : Nat := 0x08
def IPT_INV_DSTIP : Nat := 0x10
def IPT_INV_FRAG : Nat := 0x20
def XT_INV_PROTO : Nat := 0x40
def IPT_INV_PROTO : Nat := XT_INV_PROTO
/-- All seven inversion bits of the IPv4 vocabulary. -/
def IPT_INV_MASK : Nat := 0x7F

def NFT_CMP_EQ : Nat := 0
def NFT_CMP_NEQ : Nat := 1

def NFT_META_IIF : Nat := 4
def NFT_META_OIF : Nat := 5
def NF_DROP : Int := 0
def NF_ACCEPT : Int := 1
def NFT_JUMP : Int := -3
def NFT_GOTO : Int := -4
def NFT_RETURN : Int := -5

def XTC_LABEL_ACCEPT : String := "ACCEPT"
def XTC_LABEL_DROP : String := "DROP"
def XTC_LABEL_RETURN : String := "RETURN"
def XT_STANDARD_TARGET : String := ""

def IFNAMSIZ : Nat := 16
def ETH_ALEN : Nat := 6
def ARPT_DEV_ADDR_LEN_MAX : Nat := 16

/-- Field offsets of `struct arphdr` (net/if_arp.h) and the sizes used with them. -/
def offsetof_ar_hrd : Nat := 0
def offsetof_ar_pro : Nat := 2
def offsetof_ar_hln : Nat := 4
def offsetof_ar_pln : Nat := 5
def offsetof_ar_op : Nat := 6
def sizeof_arphdr : Nat := 8
def sizeof_in_addr : Nat := 4
def sizeof_xt_entry_target : Nat := 32

/-- Rounding up to the alignment of `struct _xt_align` (8 bytes). -/
def XT_ALIGN (s : Nat) : Nat := (s + 7) / 8 * 8

def FMT_NUMERIC : Nat := 0x0001
def FMT_NOCOUNTS : Nat := 0x0002
def FMT_NOTARGET : Nat := 0x0020
def FMT_VIA : Nat := 0x0040
def FMT_NONEWLINE : Nat := 0x0080
def FMT_LINENUMBERS : Nat := 0x0100

/-- Number of entries of the `opcodes` name table. -/
def NUMOPCODES : Nat := 9

/-! ## Data model -/

/-- A hardware address with its byte-wise mask (`struct arpt_devaddr_info`). -/
structure arpt_devaddr_info where
  addr : List Nat
  mask : List Nat
deriving DecidableEq

/-- The match part of a rule (`struct arpt_arp`). -/
structure arpt_arp where
  src : Nat
  tgt : Nat
  smsk : Nat
  tmsk : Nat
  arhln : Nat
  arhln_mask : Nat
  src_devaddr : arpt_devaddr_info
  tgt_devaddr : arpt_devaddr_info
  arpop : Nat
  arpop_mask : Nat
  arhrd : Nat
  arhrd_mask : Nat
  arpro : Nat
  arpro_mask : Nat
  iniface : List Nat
  outiface : List Nat
  iniface_mask : List Nat
  outiface_mask : List Nat
  flags : Nat
  invflags : Nat
deriving DecidableEq

structure xt_counters where
  pcnt : Nat
  bcnt : Nat
deriving DecidableEq

/-- The terminal action stored with a rule (`struct xt_entry_target`):
`name` is `u.user.name`, `data` the bytes after the fixed header. -/
structure xt_entry_target where
  target_size : Nat
  name : String
  revision : Nat
  data : List Nat
deriving DecidableEq

/-- The legacy rule record (`struct arpt_entry`); `elems` holds the pointer to
the target that `nft_arp_parse_target` stores there, `none` being the null
pointer of a zeroed record. -/
structure arpt_entry where
  arp : arpt_arp
  target_offset : Nat
  next_offset : Nat
  comefrom : Nat
  counters : xt_counters
  elems : Option xt_entry_target
deriving DecidableEq

/-- An entry of the target registry (`struct xtables_target`), as far as this
file reads it. -/
structure xtables_target where
  name : String
  size : Nat
  revision : Nat
deriving DecidableEq

/-- One node of a rule's expression list, with the attributes this file sets or
reads: the kind (`meta`, `payload`, `cmp`, `counter`, `immediate`, `target`, or
any other name) and its operands. The data of a `cmp` is the unsigned integer
the host reads from its `len` operand bytes. -/
inductive nft_rule_expr where
  | meta (key : Nat)
  | payload (offset : Nat) (len : Nat)
  | cmp (op : Nat) (data : Nat) (len : Nat)
  | counter (pcnt : Nat) (bcnt : Nat)
  | immediate (verdict : Int) (chain : String)
  | target (name : String) (revision : Nat) (data : List Nat)
  | other (name : String)
deriving DecidableEq

/-- The `NFT_RULE_EXPR_ATTR_NAME` attribute of an expression. -/
def nft_rule_expr.name : nft_rule_expr → String
  | .meta _ => "meta"
  | .payload _ _ => "payload"
  | .cmp _ _ _ => "cmp"
  | .counter _ _ => "counter"
  | .immediate _ _ => "immediate"
  | .target _ _ _ => "target"
  | .other n => n

/-- The interface fields that `parse_meta` receives by reference, with the
kernel-vocabulary inversion flags it reports. -/
structure iface_fields where
  iniface : List Nat
  iniface_mask : List Nat
  outiface : List Nat
  outiface_mask : List Nat
  invflags : Nat
deriving DecidableEq

/-- The collaborators of `nft-arp.c` that are outside it and depend on the host:
the interface emitters and decoder of nft-shared.c (they resolve interface
indexes), the interface comparison, the target registry, the expression and
iterator allocators, the name resolver, and the offset of `elems` in
`struct arpt_entry`. -/
structure nft_shared where
  add_iniface : List nft_rule_expr → List Nat → Nat → List nft_rule_expr
  add_outiface : List nft_rule_expr → List Nat → Nat → List nft_rule_expr
  parse_meta : nft_rule_expr → Nat → iface_fields → iface_fields
  is_same_interfaces : List Nat → List Nat → List Nat → List Nat →
    List Nat → List Nat → List Nat → List Nat → Bool
  xtables_find_target : String → Option xtables_target
  expr_alloc : String → Bool
  iter_create : Bool
  gethostbyaddr : Nat → Option String
  getnetbyaddr : Nat → Option String
  offsetof_elems : Nat

/-- The record `struct arpt_entry fw = {}`: every byte zero. -/
def arpt_entry_zero : arpt_entry :=
  { arp :=
      { src := 0, tgt := 0, smsk := 0, tmsk := 0, arhln := 0, arhln_mask := 0,
        src_devaddr := ⟨List.replicate ARPT_DEV_ADDR_LEN_MAX 0, List.replicate ARPT_DEV_ADDR_LEN_MAX 0⟩,
        tgt_devaddr := ⟨List.replicate ARPT_DEV_ADDR_LEN_MAX 0, List.replicate ARPT_DEV_ADDR_LEN_MAX 0⟩,
        arpop := 0, arpop_mask := 0, arhrd := 0, arhrd_mask := 0, arpro := 0, arpro_mask := 0,
        iniface := List.replicate IFNAMSIZ 0, outiface := List.replicate IFNAMSIZ 0,
        iniface_mask := List.replicate IFNAMSIZ 0, outiface_mask := List.replicate IFNAMSIZ 0,
        flags := 0, invflags := 0 },
    target_offset := 0, next_offset := 0, comefrom := 0,
    counters := ⟨0, 0⟩, elems := none }

/-! ## Flag codec (nft-arp.c lines 139-162 and 241-264) -/

/-- The C statement `if (invflags & bit) result |= out;`. -/
def or_if (invflags bit result out : Nat) : Nat :=
  if invflags &&& bit ≠ 0 then result ||| out else result

def arpt_to_ipt_flags (invflags : Nat) : Nat :=
  let result := 0
  let result := or_if invflags ARPT_INV_VIA_IN result IPT_INV_VIA_IN
  let result := or_if invflags ARPT_INV_VIA_OUT result IPT_INV_VIA_OUT
  let result := or_if invflags ARPT_INV_SRCIP result IPT_INV_SRCIP
  let result := or_if invflags ARPT_INV_TGTIP result IPT_INV_DSTIP
  let result := or_if invflags ARPT_INV_ARPPRO result IPT_INV_PROTO
  let result := or_if invflags ARPT_INV_MASK result IPT_INV_MASK
  result % 2 ^ 8

def ipt_to_arpt_flags (invflags : Nat) : Nat :=
  let result := 0
  let result := or_if invflags IPT_INV_VIA_IN result ARPT_INV_VIA_IN
  let result := or_if invflags IPT_INV_VIA_OUT result ARPT_INV_VIA_OUT
  let result := or_if invflags IPT_INV_SRCIP result ARPT_INV_SRCIP
  let result := or_if invflags IPT_INV_DSTIP result ARPT_INV_TGTIP
  let result := or_if invflags IPT_INV_PROTO result ARPT_INV_ARPPRO
  let result := or_if invflags IPT_INV_MASK result ARPT_INV_MASK
  result % 2 ^ 16

/-! ## Expression emitters (nft-shared.c and nft.c, called by the builder) -/

/-- Modelled from the spec: `add_payload` of nft-shared.c is not in this file.
A payload match loads `len` bytes at byte `offset` of the network header; the
emitter appends one `payload` expression carrying both. -/
def add_payload (r : List nft_rule_expr) (offset len : Nat) : List nft_rule_expr :=
  r ++ [.payload offset len]

/-- Modelled from the spec: `add_cmp_ptr` of nft-shared.c is not in this file.
It appends the comparison of a payload-equality match: operator and expected
value, the value being the first `len` bytes behind the pointer. -/
def add_cmp_ptr (r : List nft_rule_expr) (op data len : Nat) : List nft_rule_expr :=
  r ++ [.cmp op (data % 2 ^ (8 * len)) len]

/-- Modelled from the spec: `add_cmp_u8` of nft-shared.c is not in this file;
the comparison with a one-byte expected value. -/
def add_cmp_u8 (r : List nft_rule_expr) (val op : Nat) : List nft_rule_expr :=
  add_cmp_ptr r op (val % 2 ^ 8) 1

/-- Modelled from the spec: `add_cmp_u16` of nft-shared.c is not in this file;
the comparison of a payload-equal-u16 match. -/
def add_cmp_u16 (r : List nft_rule_expr) (val op : Nat) : List nft_rule_expr :=
  add_cmp_ptr r op (val % 2 ^ 16) 2

/-- Modelled from the spec: `add_proto` of nft-shared.c is not in this file.
A one-byte length match with the translated flags applied: the comparison is
negated when the protocol inversion flag is set. -/
def add_proto (r : List nft_rule_expr) (offset len proto invflags : Nat) : List nft_rule_expr :=
  let r := add_payload r offset len
  let op := if invflags &&& XT_INV_PROTO ≠ 0 then NFT_CMP_NEQ else NFT_CMP_EQ
  add_cmp_u8 r proto op

/-- Modelled from the spec: `add_addr` of nft-shared.c is not in this file.
An address match of `len` bytes at `offset` with the translated flags applied:
the comparison is negated when an address inversion flag is set. -/
def add_addr (r : List nft_rule_expr) (offset data len invflags : Nat) : List nft_rule_expr :=
  let r := add_payload r offset len
  let op := if invflags &&& IPT_INV_SRCIP ≠ 0 ∨ invflags &&& IPT_INV_DSTIP ≠ 0
    then NFT_CMP_NEQ else NFT_CMP_EQ
  add_cmp_ptr r op data len

/-- Modelled from the spec: `add_counters` of nft.c is not in this file.
It emits the counter pair; when the expression cannot be allocated it emits
nothing and reports a negative result. -/
def add_counters (env : nft_shared) (r : List nft_rule_expr) (packets bytes : Nat) :
    Int × List nft_rule_expr :=
  if env.expr_alloc "counter" then (0, r ++ [.counter (packets % 2 ^ 64) (bytes % 2 ^ 64)])
  else (-12, r)

/-- Modelled from the spec: `add_verdict` of nft.c is not in this file.
It emits a built-in verdict as an immediate expression, or fails to allocate. -/
def add_verdict (env : nft_shared) (r : List nft_rule_expr) (verdict : Int) :
    Int × List nft_rule_expr :=
  if env.expr_alloc "immediate" then (0, r ++ [.immediate verdict ""]) else (-12, r)

/-- Modelled from the spec: `add_jumpto` of nft.c is not in this file.
It emits a jump-to-user-chain action: an immediate expression with the verdict
code and the chain name, or fails to allocate. -/
def add_jumpto (env : nft_shared) (r : List nft_rule_expr) (name : String) (verdict : Int) :
    Int × List nft_rule_expr :=
  if env.expr_alloc "immediate" then (0, r ++ [.immediate verdict name]) else (-12, r)

/-- Modelled from the spec: `add_target` of nft.c is not in this file.
It emits an extension invocation: extension name, revision and the action data,
or fails to allocate. -/
def add_target (env : nft_shared) (r : List nft_rule_expr) (t : xt_entry_target) :
    Int × List nft_rule_expr :=
  if env.expr_alloc "target" then (0, r ++ [.target t.name t.revision t.data]) else (-12, r)

/-- Modelled from the spec: `nft_arp_get_target` is declared outside this file.
It returns the terminal action stored in the record: the pointer that
`nft_arp_parse_target` keeps in `elems`. -/
def nft_arp_get_target (fw : arpt_entry) : Option xt_entry_target := fw.elems

/-- The unsigned integer a little-endian host reads from a byte string. -/
def bytes_value : List Nat → Nat
  | [] => 0
  | b :: bs => b % 256 + 256 * bytes_value bs

/-! ## Expression builder (nft-arp.c lines 164-239) -/

/-- Lines 167-215 of `nft_arp_add`: the match expressions, in emission order. -/
def nft_arp_add_matches (env : nft_shared) (r : List nft_rule_expr) (fw : arpt_entry) :
    List nft_rule_expr :=
  let flags := arpt_to_ipt_flags fw.arp.invflags
  let r := if fw.arp.iniface.getD 0 0 ≠ 0 then env.add_iniface r fw.arp.iniface flags else r
  let r := if fw.arp.outiface.getD 0 0 ≠ 0 then env.add_outiface r fw.arp.outiface flags else r
  let r := if fw.arp.arhrd ≠ 0 then
      add_cmp_u16 (add_payload r offsetof_ar_hrd 2) fw.arp.arhrd NFT_CMP_EQ else r
  let r := if fw.arp.arpro ≠ 0 then
      add_cmp_u16 (add_payload r offsetof_ar_pro 2) fw.arp.arpro NFT_CMP_EQ else r
  let r := if fw.arp.arhln ≠ 0 then add_proto r offsetof_ar_hln 1 fw.arp.arhln flags else r
  let r := add_proto r offsetof_ar_pln 1 4 0
  let r := if fw.arp.arpop ≠ 0 then
      add_cmp_u16 (add_payload r offsetof_ar_op 2) fw.arp.arpop NFT_CMP_EQ else r
  let r := if fw.arp.src_devaddr.addr.getD 0 0 ≠ 0 then
      add_cmp_ptr (add_payload r sizeof_arphdr fw.arp.arhln) NFT_CMP_EQ
        (bytes_value fw.arp.src_devaddr.addr) fw.arp.arhln
    else r
  let r := if fw.arp.src ≠ 0 then
      add_addr r (sizeof_arphdr + fw.arp.arhln) fw.arp.src 4 flags else r
  let r := if fw.arp.tgt_devaddr.addr.getD 0 0 ≠ 0 then
      add_cmp_ptr (add_payload r (sizeof_arphdr + fw.arp.arhln + 4) fw.arp.arhln) NFT_CMP_EQ
        (bytes_value fw.arp.tgt_devaddr.addr) fw.arp.arhln
    else r
  let r := if fw.arp.tgt ≠ 0 then
      add_addr r (sizeof_arphdr + fw.arp.arhln + sizeof_in_addr) fw.arp.tgt 4 flags else r
  r

/-- Lines 223-238 of `nft_arp_add`: the terminal action, resolved by name. -/
def nft_arp_add_target (env : nft_shared) (r : List nft_rule_expr) (t : xt_entry_target) :
    Int × List nft_rule_expr :=
  let targname := t.name
  if targname = XTC_LABEL_ACCEPT then add_verdict env r NF_ACCEPT
  else if targname = XTC_LABEL_DROP then add_verdict env r NF_DROP
  else if targname = XTC_LABEL_RETURN then add_verdict env r NFT_RETURN
  else if (env.xtables_find_target targname).isSome then add_target env r t
  else add_jumpto env r targname NFT_JUMP

/-- The builder `nft_arp_add(r, data)`: the returned pair is the `int` result
and the rule's expression list when the call returns. -/
def nft_arp_add (env : nft_shared) (r : List nft_rule_expr) (fw : arpt_entry) :
    Option (Int × List nft_rule_expr) :=
  let r := nft_arp_add_matches env r fw
  let c := add_counters env r fw.counters.pcnt fw.counters.bcnt
  if c.1 < 0 then some (-1, c.2)
  else
    match nft_arp_get_target fw with
    | none => none
    | some t => some (nft_arp_add_target env c.2 t)

/-! ## Expression parser (nft-arp.c lines 266-398) -/

/-- Modelled from the spec: `get_cmp_data` of nft-shared.c is not in this file.
It takes the next expression from the iterator; when that is a comparison it
yields the first `dlen` bytes of the expected value and whether the comparison
carried an inversion, and otherwise it writes neither output. -/
def get_cmp_data (iter : List nft_rule_expr) (dlen : Nat) :
    Option (Nat × Bool) × List nft_rule_expr :=
  match iter with
  | [] => (none, [])
  | .cmp op data _ :: rest => (some (data % 2 ^ (8 * dlen), op == NFT_CMP_NEQ), rest)
  | _ :: rest => (none, rest)

/-- The C statement `if (inv) fw->arp.invflags |= bit;` on the 16-bit field. -/
def set_inv (fw : arpt_entry) (inv : Bool) (bit : Nat) : arpt_entry :=
  if inv then { fw with arp := { fw.arp with invflags := (fw.arp.invflags ||| bit) % 2 ^ 16 } }
  else fw

/-- The payload decoder `nft_arp_parse_payload(iter, offset, data)`: the record
and the iterator after the call; `none` when the comparison data was not
written and the code stores the unset local. -/
def nft_arp_parse_payload (iter : List nft_rule_expr) (offset : Nat) (fw : arpt_entry) :
    Option (arpt_entry × List nft_rule_expr) :=
  if offset = offsetof_ar_hrd then
    match get_cmp_data iter 2 with
    | (none, _) => none
    | (some (ar_hrd, inv), iter) =>
      let fw := { fw with arp := { fw.arp with arhrd := ar_hrd, arhrd_mask := 0xffff } }
      some (set_inv fw inv ARPT_INV_ARPHRD, iter)
  else if offset = offsetof_ar_pro then
    match get_cmp_data iter 2 with
    | (none, _) => none
    | (some (ar_pro, inv), iter) =>
      let fw := { fw with arp := { fw.arp with arpro := ar_pro, arpro_mask := 0xffff } }
      some (set_inv fw inv ARPT_INV_ARPPRO, iter)
  else if offset = offsetof_ar_op then
    match get_cmp_data iter 2 with
    | (none, _) => none
    | (some (ar_op, inv), iter) =>
      let fw := { fw with arp := { fw.arp with arpop := ar_op, arpop_mask := 0xffff } }
      some (set_inv fw inv ARPT_INV_ARPOP, iter)
  else if offset = offsetof_ar_hln then
    match get_cmp_data iter 2 with
    | (none, _) => none
    | (some (ar_hln, inv), iter) =>
      let fw := { fw with arp := { fw.arp with arhln := ar_hln % 2 ^ 8, arhln_mask := 0xff } }
      some (set_inv fw inv ARPT_INV_ARPOP, iter)
  else if (fw.arp.arhln : Int) < 0 then some (fw, iter)
  else if offset = sizeof_arphdr + fw.arp.arhln then
    match get_cmp_data iter 4 with
    | (none, _) => none
    | (some (addr, inv), iter) =>
      let fw := { fw with arp := { fw.arp with src := addr, smsk := 0xffffffff } }
      some (set_inv fw inv ARPT_INV_SRCIP, iter)
  else if offset = sizeof_arphdr + fw.arp.arhln + sizeof_in_addr then
    match get_cmp_data iter 4 with
    | (none, _) => none
    | (some (addr, inv), iter) =>
      let fw := { fw with arp := { fw.arp with tgt := addr, tmsk := 0xffffffff } }
      some (set_inv fw inv ARPT_INV_TGTIP, iter)
  else some (fw, iter)

/-- The interface decoder `nft_arp_parse_meta(e, key, data)`. -/
def nft_arp_parse_meta (env : nft_shared) (e : nft_rule_expr) (key : Nat) (fw : arpt_entry) :
    arpt_entry :=
  let flags := 0
  let f := env.parse_meta e key
    ⟨fw.arp.iniface, fw.arp.iniface_mask, fw.arp.outiface, fw.arp.outiface_mask, flags⟩
  { fw with arp := { fw.arp with
      iniface := f.iniface, iniface_mask := f.iniface_mask,
      outiface := f.outiface, outiface_mask := f.outiface_mask,
      invflags := (fw.arp.invflags ||| ipt_to_arpt_flags (f.invflags % 2 ^ 8)) % 2 ^ 16 } }

/-- The bookkeeping of `nft_arp_parse_target(target, data)`; `t` is `target->t`. -/
def nft_arp_parse_target (env : nft_shared) (t : xt_entry_target) (fw : arpt_entry) :
    arpt_entry :=
  let target_offset := env.offsetof_elems % 2 ^ 16
  { fw with target_offset := target_offset,
            next_offset := (target_offset + t.target_size) % 2 ^ 16,
            elems := some t }

/-- The verdict decoder `nft_arp_parse_immediate(jumpto, nft_goto, data)`;
`none` when the standard target is not registered (the lookup must succeed). -/
def nft_arp_parse_immediate (env : nft_shared) (jumpto : String) ( _nft_goto : Bool)
    (fw : arpt_entry) : Option arpt_entry :=
  match env.xtables_find_target XT_STANDARD_TARGET with
  | none => none
  | some target =>
    let size := XT_ALIGN sizeof_xt_entry_target + target.size
    let t : xt_entry_target :=
      { target_size := size % 2 ^ 16, name := jumpto, revision := target.revision % 2 ^ 8,
        data := List.replicate (size - sizeof_xt_entry_target) 0 }
    some (nft_arp_parse_target env t fw)

/-- Modelled from the spec: `nft_parse_counter` of nft-shared.c is not in this
file. A counter expression is copied into the record counters. -/
def nft_parse_counter (e : nft_rule_expr) (iter : List nft_rule_expr) (fw : arpt_entry) :
    Option (arpt_entry × List nft_rule_expr) :=
  match e with
  | .counter pcnt bcnt => some ({ fw with counters := ⟨pcnt, bcnt⟩ }, iter)
  | _ => some (fw, iter)

/-- Modelled from the spec: `nft_parse_payload` of nft-shared.c is not in this
file. It reads the byte offset of the payload expression and hands it, with the
iterator, to the family decoder. -/
def nft_parse_payload (e : nft_rule_expr) (iter : List nft_rule_expr) (fw : arpt_entry) :
    Option (arpt_entry × List nft_rule_expr) :=
  match e with
  | .payload offset _ => nft_arp_parse_payload iter offset fw
  | _ => some (fw, iter)

/-- Modelled from the spec: `nft_parse_meta` of nft-shared.c is not in this
file. It reads the key of the metadata expression, takes the comparison that
follows it from the iterator and hands both to the family decoder; anything
else than a comparison is skipped. -/
def nft_parse_meta (env : nft_shared) (e : nft_rule_expr) (iter : List nft_rule_expr)
    (fw : arpt_entry) : Option (arpt_entry × List nft_rule_expr) :=
  match e with
  | .meta key =>
    match iter with
    | [] => some (fw, [])
    | .cmp op data len :: rest => some (nft_arp_parse_meta env (.cmp op data len) key fw, rest)
    | _ :: rest => some (fw, rest)
  | _ => some (fw, iter)

/-- Modelled from the spec: `nft_parse_immediate` of nft-shared.c is not in this
file. The verdict code names the terminal action: the three built-in verdicts
by their reserved names, a jump or goto by its chain name; any other code
leaves the name unset. -/
def nft_parse_immediate (env : nft_shared) (e : nft_rule_expr) (iter : List nft_rule_expr)
    (fw : arpt_entry) : Option (arpt_entry × List nft_rule_expr) :=
  match e with
  | .immediate verdict chain =>
    let r :=
      if verdict = NF_ACCEPT then nft_arp_parse_immediate env "ACCEPT" false fw
      else if verdict = NF_DROP then nft_arp_parse_immediate env "DROP" false fw
      else if verdict = NFT_RETURN then nft_arp_parse_immediate env "RETURN" false fw
      else if verdict = NFT_GOTO then nft_arp_parse_immediate env chain true fw
      else if verdict = NFT_JUMP then nft_arp_parse_immediate env chain false fw
      else none
    r.map (fun fw => (fw, iter))
  | _ => some (fw, iter)

/-- Modelled from the spec: `nft_parse_target` of nft-shared.c is not in this
file. A target-name expression whose extension the registry resolves is stored
as the terminal action, with its data; an unresolved one is skipped. -/
def nft_parse_target (env : nft_shared) (e : nft_rule_expr) (iter : List nft_rule_expr)
    (fw : arpt_entry) : Option (arpt_entry × List nft_rule_expr) :=
  match e with
  | .target name revision data =>
    match env.xtables_find_target name with
    | none => some (fw, iter)
    | some _ =>
      let size := XT_ALIGN sizeof_xt_entry_target + data.length
      let t : xt_entry_target :=
        { target_size := size % 2 ^ 16, name := name, revision := revision, data := data }
      some (nft_arp_parse_target env t fw, iter)
  | _ => some (fw, iter)

/-- The body of the loop of `nft_rule_to_arpt_entry`: dispatch on the name of
the expression; an unrecognised name is ignored. -/
def nft_rule_to_arpt_entry_step (env : nft_shared) (expr : nft_rule_expr)
    (iter : List nft_rule_expr) (fw : arpt_entry) :
    Option (arpt_entry × List nft_rule_expr) :=
  let name := expr.name
  if name = "counter" then nft_parse_counter expr iter fw
  else if name = "payload" then nft_parse_payload expr iter fw
  else if name = "meta" then nft_parse_meta env expr iter fw
  else if name = "immediate" then nft_parse_immediate env expr iter fw
  else if name = "target" then nft_parse_target env expr iter fw
  else some (fw, iter)

/-- The loop of `nft_rule_to_arpt_entry` over the iterator, with a bound on the
number of iterations. -/
def nft_rule_to_arpt_entry_loop (env : nft_shared) :
    Nat → List nft_rule_expr → arpt_entry → Option arpt_entry
  | _, [], fw => some fw
  | 0, _ :: _, _ => none
  | n + 1, expr :: iter, fw =>
    match nft_rule_to_arpt_entry_step env expr iter fw with
    | none => none
    | some (fw, iter) => nft_rule_to_arpt_entry_loop env n iter fw

/-- The parser `nft_rule_to_arpt_entry(r, fw)`. Every iteration takes at least
one expression, so the length of the list bounds the loop. -/
def nft_rule_to_arpt_entry (env : nft_shared) (r : List nft_rule_expr) (fw : arpt_entry) :
    Option arpt_entry :=
  if env.iter_create then nft_rule_to_arpt_entry_loop env r.length r fw
  else some fw

/-! ## Equivalence engine (nft-arp.c lines 618-681) -/

/-- The equivalence check `nft_arp_is_same(data_a, data_b)`. -/
def nft_arp_is_same (env : nft_shared) (a b : arpt_entry) : Bool :=
  if a.arp.src ≠ b.arp.src
      ∨ a.arp.tgt ≠ b.arp.tgt
      ∨ a.arp.smsk ≠ b.arp.tmsk
      ∨ a.arp.arpro ≠ b.arp.arpro
      ∨ a.arp.flags ≠ b.arp.flags
      ∨ a.arp.invflags ≠ b.arp.invflags then
    false
  else
    env.is_same_interfaces a.arp.iniface a.arp.outiface a.arp.iniface_mask a.arp.outiface_mask
      b.arp.iniface b.arp.outiface b.arp.iniface_mask b.arp.outiface_mask

/-- The C call `memcmp(a, b, n) != 0` on the stored action data: whether the
first `n` bytes differ. -/
def memcmp_ne (a b : List Nat) (n : Nat) : Bool :=
  decide (a.take n ≠ b.take n)

/-- The rule lookup `nft_arp_rule_find(ops, r, data)`; `is_same` is
`ops->is_same`. The result is `none` when the installed rule does not parse to
a determined record or one of the two records holds no target. -/
def nft_arp_rule_find (env : nft_shared) (is_same : arpt_entry → arpt_entry → Bool)
    (r : List nft_rule_expr) (fw : arpt_entry) : Option Bool :=
  match nft_rule_to_arpt_entry env r arpt_entry_zero with
  | none => none
  | some this =>
    if !is_same fw this then some false
    else
      match nft_arp_get_target fw, nft_arp_get_target this with
      | some t_fw, some t_this =>
        let targname_fw := t_fw.name
        let targname_this := t_this.name
        if targname_fw = targname_this ∧
            (targname_fw = "mangle" ∨ targname_fw = "CLASSIFY") then
          if memcmp_ne t_fw.data t_this.data
              ((t_fw.target_size + 2 ^ 64 - sizeof_xt_entry_target) % 2 ^ 64) then
            some false
          else some true
        else if targname_fw ≠ targname_this then some false
        else some true
      | _, _ => none

/-! ## Renderer (nft-arp.c lines 31-137 and 419-558) -/

/-- The opcode name table `opcodes`. -/
def opcodes : List String :=
  [ "Request", "Reply", "Request_Reverse", "Reply_Reverse", "DRARP_Request",
    "DRARP_Reply", "DRARP_Error", "InARP_Request", "ARP_NAK" ]

/-- The read `opcodes[i]` with a signed index; `none` outside the table. -/
def opcodes_at (i : Int) : Option String :=
  if i < 0 then none else opcodes.get? i.toNat

/-- Byte swap of a 16-bit value (`ntohs` and `htons` on the little-endian host). -/
def ntohs (x : Nat) : Nat := (x % 256) * 256 + (x / 256) % 256

/-- Byte swap of a 32-bit value (`ntohl` on the little-endian host). -/
def ntohl (x : Nat) : Nat :=
  (x % 256) * 2 ^ 24 + (x / 2 ^ 8 % 256) * 2 ^ 16 + (x / 2 ^ 16 % 256) * 2 ^ 8 + x / 2 ^ 24 % 256

/-- The conversion `%d` or `%u` of a non-negative value. -/
def fmt_d (n : Nat) : String := Nat.repr n

/-- The conversion `%x`. -/
def fmt_x (n : Nat) : String := String.mk (Nat.toDigits 16 n)

/-- The conversion `%02x` of a byte. -/
def fmt_02x (n : Nat) : String :=
  if n < 16 then "0" ++ fmt_x n else fmt_x n

/-- The conversion `%s` of a NUL-terminated character array. -/
def fmt_s (cs : List Nat) : String :=
  String.mk ((cs.takeWhile (fun c => c ≠ 0)).map Char.ofNat)

def addr_to_dotted (addr : Nat) : String :=
  fmt_d (addr % 256) ++ "." ++ fmt_d (addr / 2 ^ 8 % 256) ++ "." ++
    fmt_d (addr / 2 ^ 16 % 256) ++ "." ++ fmt_d (addr / 2 ^ 24 % 256)

def addr_to_host (env : nft_shared) (addr : Nat) : Option String :=
  env.gethostbyaddr addr

def addr_to_network (env : nft_shared) (addr : Nat) : Option String :=
  env.getnetbyaddr (ntohl addr)

def addr_to_anyname (env : nft_shared) (addr : Nat) : String :=
  match addr_to_host env addr with
  | some name => name
  | none =>
    match addr_to_network env addr with
    | some name => name
    | none => addr_to_dotted addr

/-- The loop `while (--i >= 0 && maskaddr != bits) bits <<= 1;` of
`mask_to_dotted`, entered with the value of `i` before the decrement; the
result is the value of `i` when the loop ends. -/
def mask_to_dotted_loop (maskaddr : Nat) : Nat → Nat → Int
  | 0, _ => -1
  | i + 1, bits =>
    if maskaddr ≠ bits then mask_to_dotted_loop maskaddr i ((bits <<< 1) % 2 ^ 32)
    else (i : Int)

def mask_to_dotted (mask : Nat) : String :=
  let maskaddr := ntohl mask
  if maskaddr = 0xFFFFFFFF then ""
  else
    let i := mask_to_dotted_loop maskaddr 32 0xFFFFFFFE
    if i ≥ 0 then "/" ++ fmt_d i.toNat
    else "/" ++ addr_to_dotted mask

/-- The loop of `print_mac` from index `j` on, `n` bytes remaining. -/
def print_mac_from (mac : List Nat) (l : Nat) : Nat → Nat → String
  | 0, _ => ""
  | n + 1, j =>
    fmt_02x (mac.getD j 0) ++ (if j + 1 = l then "" else ":") ++ print_mac_from mac l n (j + 1)

def print_mac (mac : List Nat) (l : Nat) : String := print_mac_from mac l l 0

def print_mac_and_mask (mac mask : List Nat) (l : Nat) : String :=
  let out := print_mac mac l
  if (List.range l).all (fun i => mask.getD i 0 = 255) then out
  else out ++ "/" ++ print_mac mask l

/-- The negation marker `invflags & bit ? "! " : ""`. -/
def inv_marker (fw : arpt_entry) (bit : Nat) : String :=
  if fw.arp.invflags &&& bit ≠ 0 then "! " else ""

/-- Lines 426-455 of `print_fw_details`, once for each direction: the interface
clause with its option letter and inversion bit. -/
def print_iface (name : List Nat) (opt : String) (fw : arpt_entry) (bit format : Nat) : String :=
  let r : String × Bool :=
    if name.getD 0 0 ≠ 0 then (fmt_s name, true)
    else if format &&& FMT_VIA ≠ 0 then
      (if format &&& FMT_NUMERIC ≠ 0 then "*" else "any", true)
    else ("", false)
  if r.2 then inv_marker fw bit ++ opt ++ " " ++ r.1 ++ " " else ""

/-- Lines 457-467 and 482-492: a protocol address clause. -/
def print_addr (env : nft_shared) (addr msk : Nat) (opt : String) (fw : arpt_entry)
    (bit format : Nat) : String :=
  if msk ≠ 0 then
    let buf := if format &&& FMT_NUMERIC ≠ 0 then addr_to_dotted addr else addr_to_anyname env addr
    let buf := buf ++ mask_to_dotted msk
    inv_marker fw bit ++ opt ++ " " ++ buf ++ " "
  else ""

/-- Lines 469-480 and 494-504: a hardware address clause. -/
def print_devaddr (d : arpt_devaddr_info) (opt : String) (fw : arpt_entry) (bit : Nat) : String :=
  if (List.range ARPT_DEV_ADDR_LEN_MAX).all (fun i => d.mask.getD i 0 = 0) then ""
  else inv_marker fw bit ++ opt ++ " " ++ print_mac_and_mask d.addr d.mask ETH_ALEN ++ " "

/-- Lines 508-515: the hardware-address-length clause. -/
def print_h_length (fw : arpt_entry) : String :=
  if fw.arp.arhln_mask ≠ 0 then
    inv_marker fw ARPT_INV_ARPHLN ++ "--h-length " ++ fmt_d fw.arp.arhln ++
      (if fw.arp.arhln_mask ≠ 255 then "/" ++ fmt_d fw.arp.arhln_mask else "") ++ " "
  else ""

/-- Lines 517-529: the opcode clause. The `else` of line 524 governs the mask
suffix of line 526; `none` when the name table is read outside its bounds. -/
def print_opcode (fw : arpt_entry) (format : Nat) : Option String :=
  if fw.arp.arpop_mask ≠ 0 then
    let tmp := ntohs fw.arp.arpop
    let out := inv_marker fw ARPT_INV_ARPOP
    if tmp ≤ NUMOPCODES ∧ ¬ (format &&& FMT_NUMERIC ≠ 0) then
      match opcodes_at ((tmp : Int) - 1) with
      | none => none
      | some name => some (out ++ "--opcode " ++ name ++ " ")
    else if fw.arp.arpop_mask ≠ 65535 then
      some (out ++ "/" ++ fmt_d (ntohs fw.arp.arpop_mask) ++ " ")
    else some (out ++ " ")
  else some ""

/-- Lines 531-543: the hardware-type clause. -/
def print_h_type (fw : arpt_entry) (format : Nat) : String :=
  if fw.arp.arhrd_mask ≠ 0 then
    let tmp := ntohs fw.arp.arhrd
    inv_marker fw ARPT_INV_ARPHRD ++
      (if tmp = 1 ∧ ¬ (format &&& FMT_NUMERIC ≠ 0) then "--h-type " ++ "Ethernet"
       else "--h-type " ++ fmt_d tmp) ++
      (if fw.arp.arhrd_mask ≠ 65535 then "/" ++ fmt_d (ntohs fw.arp.arhrd_mask) else "") ++ " "
  else ""

/-- Lines 545-557: the protocol-type clause. -/
def print_proto_type (fw : arpt_entry) (format : Nat) : String :=
  if fw.arp.arpro_mask ≠ 0 then
    let tmp := ntohs fw.arp.arpro
    inv_marker fw ARPT_INV_ARPPRO ++
      (if tmp = 0x0800 ∧ ¬ (format &&& FMT_NUMERIC ≠ 0) then "--proto-type " ++ "IPv4"
       else "--proto-type 0x" ++ fmt_x tmp) ++
      (if fw.arp.arpro_mask ≠ 65535 then "/" ++ fmt_x (ntohs fw.arp.arpro_mask) else "") ++ " "
  else ""

/-- The text `print_fw_details(fw, format)` writes to standard output. -/
def print_fw_details (env : nft_shared) (fw : arpt_entry) (format : Nat) : Option String :=
  let out := print_iface fw.arp.iniface "-i" fw ARPT_INV_VIA_IN format
  let out := out ++ print_iface fw.arp.outiface "-o" fw ARPT_INV_VIA_OUT format
  let out := out ++ print_addr env fw.arp.src fw.arp.smsk "-s" fw ARPT_INV_SRCIP format
  let out := out ++ print_devaddr fw.arp.src_devaddr "--src-mac" fw ARPT_INV_SRCDEVADDR
  let out := out ++ print_addr env fw.arp.tgt fw.arp.tmsk "-d" fw ARPT_INV_TGTIP format
  let out := out ++ print_devaddr fw.arp.tgt_devaddr "--dst-mac" fw ARPT_INV_TGTDEVADDR
  let out := out ++ print_h_length fw
  match print_opcode fw format with
  | none => none
  | some opcode =>
    let out := out ++ opcode
    let out := out ++ print_h_type fw format
    let out := out ++ print_proto_type fw format
    some out

/-! ## Derived views of the builder, used to state its properties -/

/-- The operator of the hardware-address-length match: negated when the
translated flags carry the protocol inversion. -/
def hln_op (fw : arpt_entry) : Nat :=
  if arpt_to_ipt_flags fw.arp.invflags &&& XT_INV_PROTO ≠ 0 then NFT_CMP_NEQ else NFT_CMP_EQ

/-- The operator of the protocol address matches: negated when the translated
flags carry an address inversion. -/
def addr_op (fw : arpt_entry) : Nat :=
  if arpt_to_ipt_flags fw.arp.invflags &&& IPT_INV_SRCIP ≠ 0
      ∨ arpt_to_ipt_flags fw.arp.invflags &&& IPT_INV_DSTIP ≠ 0 then NFT_CMP_NEQ else NFT_CMP_EQ

/-- The expressions of the interface matches, as the emitters of nft-shared.c
leave them in the rule. -/
def nft_arp_add_ifaces (env : nft_shared) (r : List nft_rule_expr) (fw : arpt_entry) :
    List nft_rule_expr :=
  let flags := arpt_to_ipt_flags fw.arp.invflags
  let r := if fw.arp.iniface.getD 0 0 ≠ 0 then env.add_iniface r fw.arp.iniface flags else r
  if fw.arp.outiface.getD 0 0 ≠ 0 then env.add_outiface r fw.arp.outiface flags else r

def PARAMETER_PROBLEM : Nat := 2

/-- The largest `unsigned long long`, which is also the value of `-1` converted
to `u_int64_t`. -/
def ULLONG_MAX : Nat := 2 ^ 64 - 1

/-- The C predicate `isspace` in the "C" locale. -/
def isspace (c : Char) : Bool :=
  c = ' ' || c = '\t' || c = '\n' || c = Char.ofNat 11 || c = Char.ofNat 12 || c = '\r'

/-- The digits at the head of `cs`, accumulated in base 10 on top of `acc`;
the flag tells whether a digit was seen. -/
def strtoull_digits : List Char → Nat → Bool → Nat × Bool
  | [], acc, seen => (acc, seen)
  | c :: cs, acc, seen =>
    if c.isDigit then strtoull_digits cs (acc * 10 + (c.toNat - '0'.toNat)) true
    else (acc, seen)

/-- The C library call `strtoull(s, NULL, 10)`: leading white space is skipped,
an optional sign is read, then the longest run of decimal digits; what follows
is ignored. No digits give 0; a value above `ULLONG_MAX` gives `ULLONG_MAX`; a
minus sign negates the value as an unsigned 64-bit integer. -/
def strtoull (s : String) : Nat :=
  let cs := s.data.dropWhile isspace
  let neg := cs.head? = some '-'
  let cs := if cs.head? = some '-' ∨ cs.head? = some '+' then cs.tail else cs
  let r := strtoull_digits cs 0 false
  if r.1 > ULLONG_MAX then ULLONG_MAX
  else if neg then (2 ^ 64 - r.1) % 2 ^ 64
  else r.1

/-- The option parser `parse_quota(s, quota)`: `Except.error` is the exit of
the process through `exit_error` with the given status, `Except.ok` carries the
value stored in `*quota` and the `int` returned. -/
def parse_quota (s : String) : Except Nat (Nat × Int) :=
  let quota := strtoull s
  if quota = ULLONG_MAX then Except.error PARAMETER_PROBLEM
  else Except.ok (quota, 1)

/-- The mask with `n` leading one bits followed by zeros, as a 32-bit value in
host order. -/
def prefix_mask (n : Nat) : Nat := 2 ^ 32 - 2 ^ (32 - n)

/-- Whether an expression is a payload expression at byte `offset`. -/
def is_payload_at (offset : Nat) : nft_rule_expr → Bool
  | .payload o _ => o == offset
  | _ => false

/-- The state of a record in which no hardware-address-length has been parsed,
no source address when `a` holds and no target address when `b` holds. -/
def no_address_decoded (a b : Prop) (fw : arpt_entry) : Prop :=
  fw.arp.arhln = 0
  ∧ (a → fw.arp.src = 0 ∧ fw.arp.smsk = 0)
  ∧ (b → fw.arp.tgt = 0 ∧ fw.arp.tmsk = 0)

/-! ## Concrete inputs used by the closed statements below -/

/-- A host on which every allocation succeeds, only the standard target is
registered, interfaces are left alone and no address resolves to a name. -/
def env_plain : nft_shared :=
  { add_iniface := fun r _ _ => r,
    add_outiface := fun r _ _ => r,
    parse_meta := fun _ _ f => f,
    is_same_interfaces := fun _ _ _ _ _ _ _ _ => true,
    xtables_find_target := fun n => if n = XT_STANDARD_TARGET then some ⟨"standard", 8, 0⟩ else none,
    expr_alloc := fun _ => true,
    iter_create := true,
    gethostbyaddr := fun _ => none,
    getnetbyaddr := fun _ => none,
    offsetof_elems := 192 }

/-- The host of `env_plain`, except that a counter expression cannot be allocated. -/
def env_no_counter : nft_shared :=
  { env_plain with expr_alloc := fun n => decide (n ≠ "counter") }

/-- The standard target with the given verdict name. -/
def std_target (name : String) : xt_entry_target :=
  { target_size := 40, name := name, revision := 0, data := List.replicate 8 0 }

/-- The rule `-j ACCEPT` with no match. -/
def fw_accept : arpt_entry := { arpt_entry_zero with elems := some (std_target "ACCEPT") }

/-- The rule `-s 10.0.0.1 -j ACCEPT`: a source address with an all-ones mask. -/
def fw_src_host : arpt_entry :=
  { fw_accept with arp := { arpt_entry_zero.arp with src := 0x0100000a, smsk := 0xffffffff } }

/-- The rule `--h-length 6 -d 10.0.0.1 -j ACCEPT`. -/
def fw_tgt_host : arpt_entry :=
  { fw_accept with arp := { arpt_entry_zero.arp with
      arhln := 6, arhln_mask := 0xff, tgt := 0x0100000a, tmsk := 0xffffffff } }

/-- The rule `--h-type 1 --h-length 6 --opcode 1 -s 10.0.0.1 -d 10.0.0.2 -j ACCEPT`
with a source and a target hardware address; values in network order. -/
def fw_full : arpt_entry :=
  { fw_accept with arp := { arpt_entry_zero.arp with
      arhrd := 0x0100, arhrd_mask := 0xffff, arhln := 6, arhln_mask := 0xff,
      arpop := 0x0100, arpop_mask := 0xffff,
      src := 0x0100000a, smsk := 0xffffffff, tgt := 0x0200000a, tmsk := 0xffffffff,
      src_devaddr := ⟨[0x52, 0x54, 0, 0x12, 0x34, 0x56] ++ List.replicate 10 0,
                      List.replicate 6 255 ++ List.replicate 10 0⟩,
      tgt_devaddr := ⟨[0x52, 0x54, 0, 0xab, 0xcd, 0xef] ++ List.replicate 10 0,
                      List.replicate 6 255 ++ List.replicate 10 0⟩ } }

/-- A record whose hardware-address-length 6 has been parsed. -/
def fw_hln6 : arpt_entry :=
  { arpt_entry_zero with arp := { arpt_entry_zero.arp with arhln := 6, arhln_mask := 0xff } }

/-- The rule `--opcode 255 -j ACCEPT`; the opcode is stored in network order. -/
def fw_opcode_255 : arpt_entry :=
  { fw_accept with arp := { arpt_entry_zero.arp with arpop := 0xff00, arpop_mask := 0xffff } }

/-- The rule `--proto-type 0x800 -j ACCEPT`; the type is stored in network order. -/
def fw_proto_ipv4 : arpt_entry :=
  { fw_accept with arp := { arpt_entry_zero.arp with arpro := 0x0008, arpro_mask := 0xffff } }

/-- An installed rule with no match and the verdict `DROP`. -/
def rule_drop : List nft_rule_expr :=
  [.payload 5 1, .cmp NFT_CMP_EQ 4 1, .counter 0 0, .immediate NF_DROP ""]

/-- A host like `env_plain` whose registry also resolves the extensions
`mangle` and `CLASSIFY`. -/
def env_ext : nft_shared :=
  { env_plain with
    xtables_find_target := fun n =>
      if n = XT_STANDARD_TARGET then some ⟨"standard", 8, 0⟩
      else if n = "mangle" then some ⟨"mangle", 32, 0⟩
      else if n = "CLASSIFY" then some ⟨"CLASSIFY", 4, 0⟩
      else none }

/-- The candidate rule `-j CLASSIFY --set-class 1:2`: four bytes of action data. -/
def fw_classify : arpt_entry :=
  { arpt_entry_zero with
    elems := some { target_size := 36, name := "CLASSIFY", revision := 0, data := [2, 0, 1, 0] } }

/-- An installed rule with the target `CLASSIFY` and the same action data. -/
def rule_classify : List nft_rule_expr :=
  [.payload 5 1, .cmp NFT_CMP_EQ 4 1, .counter 0 0, .target "CLASSIFY" 0 [2, 0, 1, 0]]

/-- The rule `--opcode 0 -j ACCEPT`. -/
def fw_opcode_0 : arpt_entry :=
  { fw_accept with arp := { arpt_entry_zero.arp with arpop := 0, arpop_mask := 0xffff } }

/-- The expressions the builder emits for `-s 10.0.0.1 -j ACCEPT`: no
hardware-address-length expression, the source address at offset 8. -/
def rule_src_host : List nft_rule_expr :=
  [.payload 5 1, .cmp NFT_CMP_EQ 4 1, .payload 8 4, .cmp NFT_CMP_EQ 0x0100000a 4,
   .counter 0 0, .immediate NF_ACCEPT ""]

/-- The rule `--h-length 6 --dst-mac 52:54:00:ab:cd:ef -j ACCEPT`: a target
hardware address and no target protocol address. -/
def fw_dst_mac : arpt_entry :=
  { fw_accept with arp := { arpt_entry_zero.arp with
      arhln := 6, arhln_mask := 0xff,
      tgt_devaddr := ⟨[0x52, 0x54, 0, 0xab, 0xcd, 0xef] ++ List.replicate 10 0,
                      List.replicate 6 255 ++ List.replicate 10 0⟩ } }

/-- The rule `-s 10.0.0.1 --opcode 1 -j ACCEPT`. -/
def fw_src_op1 : arpt_entry :=
  { fw_accept with arp := { arpt_entry_zero.arp with
      src := 0x0100000a, smsk := 0xffffffff, arpop := 0x0100, arpop_mask := 0xffff } }

/-- The rule `-s 10.0.0.1 --opcode 2 -j ACCEPT`: `fw_src_op1` with another opcode. -/
def fw_src_op2 : arpt_entry :=
  { fw_src_op1 with arp := { fw_src_op1.arp with arpop := 0x0200 } }

/-- The rule `-s 10.0.0.1 -d 10.0.0.2 --opcode 1 -j ACCEPT`: source and target
masks are equal. -/
def fw_src_tgt_op1 : arpt_entry :=
  { fw_accept with arp := { arpt_entry_zero.arp with
      src := 0x0100000a, smsk := 0xffffffff, tgt := 0x0200000a, tmsk := 0xffffffff,
      arpop := 0x0100, arpop_mask := 0xffff } }

/-- C2: the equivalence check is not reflexive. The record of the rule
`-s 10.0.0.1 -j ACCEPT` (source mask all ones, target mask zero) is judged
different from itself on every host, because line 626 compares the source mask
of one side with the target mask of the other. -/
theorem nft_arp_is_same_not_reflexive (env : nft_shared) :
    nft_arp_is_same env fw_src_host fw_src_host = false := by
  simp [nft_arp_is_same, fw_src_host, fw_accept, arpt_entry_zero]

/-- C3: when the terminal action name of the candidate differs from the one of
the record parsed from the installed rule, `nft_arp_rule_find` returns false,
whatever `is_same` answers on the other fields. -/
theorem nft_arp_rule_find_rejects_other_target (env : nft_shared)
    (is_same : arpt_entry → arpt_entry → Bool) (r : List nft_rule_expr)
    (fw this : arpt_entry) (t_fw t_this : xt_entry_target)
    (hparse : nft_rule_to_arpt_entry env r arpt_entry_zero = some this)
    (hfw : nft_arp_get_target fw = some t_fw)
    (hthis : nft_arp_get_target this = some t_this)
    (hname : t_fw.name ≠ t_this.name) :
    nft_arp_rule_find env is_same r fw = some false := by
  unfold nft_arp_rule_find
  rw [hparse]
  cases hs : is_same fw this
  · simp [hs]
  · simp [hs, hfw, hthis, hname]

/-- Witness of C3: the candidate `-j ACCEPT` against an installed rule with the
verdict `DROP`, all other fields equal and `is_same` answering true. -/
theorem nft_arp_rule_find_rejects_other_target_witness :
    nft_arp_is_same env_plain fw_accept
        (nft_arp_parse_target env_plain (std_target "DROP") arpt_entry_zero) = true
      ∧ nft_arp_rule_find env_plain (nft_arp_is_same env_plain) rule_drop fw_accept
        = some false :=
  ⟨by decide,
   nft_arp_rule_find_rejects_other_target env_plain (nft_arp_is_same env_plain) rule_drop
     fw_accept (nft_arp_parse_target env_plain (std_target "DROP") arpt_entry_zero)
     (std_target "ACCEPT") (std_target "DROP") (by decide) (by decide) (by decide) (by decide)⟩

/-- The terminal action appended by lines 223-238, when its emission succeeds,
is one immediate or target expression after the list it was given. -/
theorem nft_arp_add_target_appends (env : nft_shared) (r : List nft_rule_expr)
    (t : xt_entry_target) (h : 0 ≤ (nft_arp_add_target env r t).1) :
    ∃ term, (nft_arp_add_target env r t).2 = r ++ [term]
      ∧ (term.name = "immediate" ∨ term.name = "target") := by
  unfold nft_arp_add_target add_verdict add_target add_jumpto at *
  dsimp only at h ⊢
  split_ifs at h ⊢ <;> first
    | exact ⟨_, rfl, Or.inl rfl⟩
    | exact ⟨_, rfl, Or.inr rfl⟩
    | simp at h

/-- C4: whenever `nft_arp_add` succeeds, the expression list it leaves is the
match expressions, then the counter expression, then the terminal action (an
immediate verdict or jump, or a target invocation) as the last expression. -/
theorem nft_arp_add_counter_before_target (env : nft_shared) (r : List nft_rule_expr)
    (fw : arpt_entry) (ret : Int) (out : List nft_rule_expr)
    (h : nft_arp_add env r fw = some (ret, out)) (hret : 0 ≤ ret) :
    ∃ term, out = nft_arp_add_matches env r fw
        ++ [.counter (fw.counters.pcnt % 2 ^ 64) (fw.counters.bcnt % 2 ^ 64), term]
      ∧ (term.name = "immediate" ∨ term.name = "target") := by
  unfold nft_arp_add add_counters at h
  by_cases ha : env.expr_alloc "counter" = true
  · simp only [ha, if_true] at h
    cases ht : nft_arp_get_target fw with
    | none => simp [ht] at h
    | some t =>
      simp only [ht] at h
      have hlt : ¬ ((0 : Int) < 0) := by decide
      simp only [hlt, if_false, Option.some.injEq] at h
      have h1 : (nft_arp_add_target env _ t).1 = ret := congrArg Prod.fst h
      have h2 : (nft_arp_add_target env _ t).2 = out := congrArg Prod.snd h
      obtain ⟨term, hterm, hkind⟩ :=
        nft_arp_add_target_appends env _ t (by rw [h1]; exact hret)
      refine ⟨term, ?_, hkind⟩
      rw [← h2, hterm, List.append_assoc]
      rfl
  · simp only [ha] at h
    have hlt : ((-12 : Int) < 0) := by decide
    simp only [Bool.false_eq_true, if_false, hlt, if_true, Option.some.injEq, Prod.mk.injEq] at h
    omega

/-- Witness of C4: the rule `--h-length 6 -d 10.0.0.1 -j ACCEPT` on a host where
every allocation succeeds. -/
theorem nft_arp_add_counter_before_target_witness :
    ∃ term, [nft_rule_expr.payload 4 1, .cmp NFT_CMP_EQ 6 1, .payload 5 1, .cmp NFT_CMP_EQ 4 1,
        .payload 18 4, .cmp NFT_CMP_EQ 0x0100000a 4, .counter 0 0, .immediate NF_ACCEPT ""]
        = nft_arp_add_matches env_plain [] fw_tgt_host
          ++ [.counter (fw_tgt_host.counters.pcnt % 2 ^ 64) (fw_tgt_host.counters.bcnt % 2 ^ 64), term]
      ∧ (term.name = "immediate" ∨ term.name = "target") :=
  nft_arp_add_counter_before_target env_plain [] fw_tgt_host 0 _ (by decide) (by decide)

/-- C5: the round trip through the kernel vocabulary introduces inversion bits.
From the single bit `ARPT_INV_VIA_IN` it returns all ten legacy bits, among
them the mapped bit `ARPT_INV_VIA_OUT` that the input did not have: the test
against the all-bits constant `ARPT_INV_MASK` sets every bit of `IPT_INV_MASK`. -/
theorem flags_round_trip_adds_bits :
    ipt_to_arpt_flags (arpt_to_ipt_flags ARPT_INV_VIA_IN) = 0x03FF
      ∧ ipt_to_arpt_flags (arpt_to_ipt_flags ARPT_INV_VIA_IN) &&& ARPT_INV_VIA_OUT ≠ 0
      ∧ ARPT_INV_VIA_IN &&& ARPT_INV_VIA_OUT = 0 := by
  decide

/-- C6: a comparison after a payload expression at offset 8+L+4+4 is not
classified as the target protocol address. With hardware-address-length 6 in
the record the expression at offset 22 is ignored: the record keeps its zero
target address and mask and the comparison stays in the iterator. The decoder
tests offset 8+L+4 (line 357), the place of the target hardware address (line
209): the expressions built for `--h-length 6 --dst-mac 52:54:00:ab:cd:ef` are
read back with the target protocol address 82.84.0.171, the first four bytes of
the hardware address. -/
theorem nft_arp_parse_payload_offset_22_ignored :
    nft_arp_parse_payload [.cmp NFT_CMP_EQ 0x0100000a 4] (8 + fw_hln6.arp.arhln + 4 + 4) fw_hln6
      = some (fw_hln6, [.cmp NFT_CMP_EQ 0x0100000a 4])
    ∧ fw_hln6.arp.tgt = 0 ∧ fw_hln6.arp.tmsk = 0
    ∧ nft_arp_add env_plain [] fw_dst_mac
      = some (0, [.payload 4 1, .cmp NFT_CMP_EQ 6 1, .payload 5 1, .cmp NFT_CMP_EQ 4 1,
          .payload 18 6, .cmp NFT_CMP_EQ 0xefcdab005452 6, .counter 0 0,
          .immediate NF_ACCEPT ""])
    ∧ (nft_rule_to_arpt_entry env_plain
          [.payload 4 1, .cmp NFT_CMP_EQ 6 1, .payload 5 1, .cmp NFT_CMP_EQ 4 1,
            .payload 18 6, .cmp NFT_CMP_EQ 0xefcdab005452 6, .counter 0 0,
            .immediate NF_ACCEPT ""] arpt_entry_zero).map
        (fun fw => (fw.arp.tgt, fw.arp.tmsk, addr_to_dotted fw.arp.tgt))
      = some (0xab005452, 0xffffffff, "82.84.0.171")
    ∧ fw_dst_mac.arp.tgt = 0 := by
  decide

/-- C7: the target protocol address match is not emitted at offset 8+L+4+4. For
the rule `--h-length 6 -d 10.0.0.1 -j ACCEPT` it is emitted at offset 18 = 8+6+4
and no payload expression is emitted at offset 22. Offset 18 is where the
target hardware address match goes as well: for a rule with both target
addresses the two matches follow each other at the same offset, while on the
source side the protocol address (offset 14) comes after the hardware address
(offset 8). -/
theorem nft_arp_add_target_address_at_18 :
    nft_arp_add env_plain [] fw_tgt_host
      = some (0, [.payload 4 1, .cmp NFT_CMP_EQ 6 1, .payload 5 1, .cmp NFT_CMP_EQ 4 1,
          .payload 18 4, .cmp NFT_CMP_EQ 0x0100000a 4, .counter 0 0, .immediate NF_ACCEPT ""])
    ∧ nft_rule_expr.payload (8 + fw_tgt_host.arp.arhln + 4 + 4) 4
      ∉ [nft_rule_expr.payload 4 1, .cmp NFT_CMP_EQ 6 1, .payload 5 1, .cmp NFT_CMP_EQ 4 1,
          .payload 18 4, .cmp NFT_CMP_EQ 0x0100000a 4, .counter 0 0, .immediate NF_ACCEPT ""]
    ∧ nft_arp_add env_plain [] fw_full
      = some (0, [.payload 0 2, .cmp NFT_CMP_EQ 0x0100 2, .payload 4 1, .cmp NFT_CMP_EQ 6 1,
          .payload 5 1, .cmp NFT_CMP_EQ 4 1, .payload 6 2, .cmp NFT_CMP_EQ 0x0100 2,
          .payload 8 6, .cmp NFT_CMP_EQ 0x563412005452 6,
          .payload 14 4, .cmp NFT_CMP_EQ 0x0100000a 4,
          .payload 18 6, .cmp NFT_CMP_EQ 0xefcdab005452 6,
          .payload 18 4, .cmp NFT_CMP_EQ 0x0200000a 4,
          .counter 0 0, .immediate NF_ACCEPT ""]) := by
  decide

/-- A conditional emission appends a conditional segment. -/
theorem ite_append_seg {α : Type} (c : Prop) [Decidable c] (r s : List α) :
    (if c then r ++ s else r) = r ++ (if c then s else []) := by
  split_ifs <;> simp

/-- The payload matches of `nft_arp_add` as a list of segments in emission
order, each present when its field is set: the form lines 178-215 give them. -/
theorem nft_arp_add_matches_eq (env : nft_shared) (r : List nft_rule_expr) (fw : arpt_entry) :
    nft_arp_add_matches env r fw = nft_arp_add_ifaces env r fw
      ++ ((if fw.arp.arhrd ≠ 0 then
            [.payload 0 2, .cmp NFT_CMP_EQ (fw.arp.arhrd % 2 ^ 16) 2] else [])
      ++ ((if fw.arp.arpro ≠ 0 then
            [.payload 2 2, .cmp NFT_CMP_EQ (fw.arp.arpro % 2 ^ 16) 2] else [])
      ++ ((if fw.arp.arhln ≠ 0 then
            [.payload 4 1, .cmp (hln_op fw) (fw.arp.arhln % 2 ^ 8) 1] else [])
      ++ ([.payload 5 1, .cmp NFT_CMP_EQ 4 1]
      ++ ((if fw.arp.arpop ≠ 0 then
            [.payload 6 2, .cmp NFT_CMP_EQ (fw.arp.arpop % 2 ^ 16) 2] else [])
      ++ ((if fw.arp.src_devaddr.addr.getD 0 0 ≠ 0 then
            [.payload 8 fw.arp.arhln, .cmp NFT_CMP_EQ
              (bytes_value fw.arp.src_devaddr.addr % 2 ^ (8 * fw.arp.arhln)) fw.arp.arhln] else [])
      ++ ((if fw.arp.src ≠ 0 then
            [.payload (8 + fw.arp.arhln) 4, .cmp (addr_op fw) (fw.arp.src % 2 ^ 32) 4] else [])
      ++ ((if fw.arp.tgt_devaddr.addr.getD 0 0 ≠ 0 then
            [.payload (8 + fw.arp.arhln + 4) fw.arp.arhln, .cmp NFT_CMP_EQ
              (bytes_value fw.arp.tgt_devaddr.addr % 2 ^ (8 * fw.arp.arhln)) fw.arp.arhln] else [])
      ++ (if fw.arp.tgt ≠ 0 then
            [.payload (8 + fw.arp.arhln + 4) 4, .cmp (addr_op fw) (fw.arp.tgt % 2 ^ 32) 4]
          else []))))))))) := by
  unfold nft_arp_add_matches
  lift_lets
  intro flags r1 r2 r3 r4 r5 r6 r7 r8 r9 r10 r11
  have e2 : r2 = nft_arp_add_ifaces env r fw := rfl
  have e3 : r3 = r2 ++ (if fw.arp.arhrd ≠ 0 then
      [.payload 0 2, .cmp NFT_CMP_EQ (fw.arp.arhrd % 2 ^ 16) 2] else []) := by
    simp only [r3, add_payload, add_cmp_u16, add_cmp_ptr, offsetof_ar_hrd]
    split_ifs <;> simp
  have e4 : r4 = r3 ++ (if fw.arp.arpro ≠ 0 then
      [.payload 2 2, .cmp NFT_CMP_EQ (fw.arp.arpro % 2 ^ 16) 2] else []) := by
    simp only [r4, add_payload, add_cmp_u16, add_cmp_ptr, offsetof_ar_pro]
    split_ifs <;> simp
  have e5 : r5 = r4 ++ (if fw.arp.arhln ≠ 0 then
      [.payload 4 1, .cmp (hln_op fw) (fw.arp.arhln % 2 ^ 8) 1] else []) := by
    simp only [r5, add_proto, add_payload, add_cmp_u8, add_cmp_ptr, offsetof_ar_hln, hln_op, flags]
    split_ifs <;> simp
  have e6 : r6 = r5 ++ [.payload 5 1, .cmp NFT_CMP_EQ 4 1] := by
    simp [r6, add_proto, add_payload, add_cmp_u8, add_cmp_ptr, offsetof_ar_pln, XT_INV_PROTO]
  have e7 : r7 = r6 ++ (if fw.arp.arpop ≠ 0 then
      [.payload 6 2, .cmp NFT_CMP_EQ (fw.arp.arpop % 2 ^ 16) 2] else []) := by
    simp only [r7, add_payload, add_cmp_u16, add_cmp_ptr, offsetof_ar_op]
    split_ifs <;> simp
  have e8 : r8 = r7 ++ (if fw.arp.src_devaddr.addr.getD 0 0 ≠ 0 then
      [.payload 8 fw.arp.arhln, .cmp NFT_CMP_EQ
        (bytes_value fw.arp.src_devaddr.addr % 2 ^ (8 * fw.arp.arhln)) fw.arp.arhln] else []) := by
    simp only [r8, add_payload, add_cmp_ptr, sizeof_arphdr]
    split_ifs <;> simp
  have e9 : r9 = r8 ++ (if fw.arp.src ≠ 0 then
      [.payload (8 + fw.arp.arhln) 4, .cmp (addr_op fw) (fw.arp.src % 2 ^ 32) 4] else []) := by
    simp only [r9, add_addr, add_payload, add_cmp_ptr, sizeof_arphdr, addr_op, flags]
    split_ifs <;> simp
  have e10 : r10 = r9 ++ (if fw.arp.tgt_devaddr.addr.getD 0 0 ≠ 0 then
      [.payload (8 + fw.arp.arhln + 4) fw.arp.arhln, .cmp NFT_CMP_EQ
        (bytes_value fw.arp.tgt_devaddr.addr % 2 ^ (8 * fw.arp.arhln)) fw.arp.arhln] else []) := by
    simp only [r10, add_payload, add_cmp_ptr, sizeof_arphdr]
    split_ifs <;> simp
  have e11 : r11 = r10 ++ (if fw.arp.tgt ≠ 0 then
      [.payload (8 + fw.arp.arhln + 4) 4, .cmp (addr_op fw) (fw.arp.tgt % 2 ^ 32) 4]
      else []) := by
    simp only [r11, add_addr, add_payload, add_cmp_ptr, sizeof_arphdr, sizeof_in_addr, addr_op, flags]
    split_ifs <;> simp
  show r11 = _
  rw [e11, e10, e9, e8, e7, e6, e5, e4, e3, e2]
  simp only [List.append_assoc]

/-- C8: an opcode outside the name table is not rendered numerically. For the
rule `--opcode 255` (mask all ones) in textual mode the whole output of
`print_fw_details` is one blank: no `--opcode` clause and no value are written,
because the `else` of line 524 has lost its numeric `printf`. -/
theorem print_fw_details_opcode_255 (env : nft_shared) :
    print_fw_details env fw_opcode_255 0 = some " "
      ∧ print_opcode fw_opcode_255 0 = some " "
      ∧ ntohs fw_opcode_255.arp.arpop = 255 := by
  refine ⟨?_, by decide, by decide⟩
  simp [print_fw_details, print_iface, print_addr, print_devaddr, print_h_length,
    print_h_type, print_proto_type, fw_opcode_255, fw_accept, arpt_entry_zero, FMT_VIA,
    ARPT_DEV_ADDR_LEN_MAX, IFNAMSIZ]
  decide

/-- The output of `print_fw_details` ends with the protocol-type clause. -/
theorem print_fw_details_ends_with_proto_type (env : nft_shared) (fw : arpt_entry)
    (format : Nat) (out : String) (h : print_fw_details env fw format = some out) :
    ∃ pre, out = pre ++ print_proto_type fw format := by
  unfold print_fw_details at h
  cases ho : print_opcode fw format with
  | none => simp [ho] at h
  | some op =>
    simp only [ho, Option.some.injEq] at h
    exact ⟨_, h.symm⟩

/-- C9: for a record with non-zero protocol-type mask whose host-order protocol
type is 0x0800, the protocol-type clause of `print_fw_details` reads
`--proto-type IPv4` in textual mode and `--proto-type 0x800` in numeric mode
(after the negation marker, before the mask suffix and the closing blank), and
it is the last clause of every output of `print_fw_details`. -/
theorem print_proto_type_ipv4 (env : nft_shared) (fw : arpt_entry) (format : Nat)
    (hmask : fw.arp.arpro_mask ≠ 0) (hpro : ntohs fw.arp.arpro = 0x0800) :
    (format &&& FMT_NUMERIC = 0 →
      print_proto_type fw format = inv_marker fw ARPT_INV_ARPPRO ++ "--proto-type IPv4"
        ++ (if fw.arp.arpro_mask ≠ 65535 then "/" ++ fmt_x (ntohs fw.arp.arpro_mask) else "")
        ++ " ")
    ∧ (format &&& FMT_NUMERIC ≠ 0 →
      print_proto_type fw format = inv_marker fw ARPT_INV_ARPPRO ++ "--proto-type 0x800"
        ++ (if fw.arp.arpro_mask ≠ 65535 then "/" ++ fmt_x (ntohs fw.arp.arpro_mask) else "")
        ++ " ")
    ∧ (∀ out, print_fw_details env fw format = some out →
        ∃ pre, out = pre ++ print_proto_type fw format) := by
  have hx : "--proto-type 0x" ++ fmt_x 2048 = "--proto-type 0x800" := by decide
  have hi : "--proto-type " ++ "IPv4" = "--proto-type IPv4" := by decide
  refine ⟨?_, ?_, fun out h => print_fw_details_ends_with_proto_type env fw format out h⟩
  · intro hf
    simp [print_proto_type, hmask, hpro, hf, hi]
  · intro hf
    simp [print_proto_type, hmask, hpro, hf, hx]

/-- Witness of C9: the rule `--proto-type 0x800 -j ACCEPT` in textual mode
(format 0) and in numeric mode (format `FMT_NUMERIC`). -/
theorem print_proto_type_ipv4_witness :
    print_fw_details env_plain fw_proto_ipv4 0 = some "--proto-type IPv4 "
    ∧ print_fw_details env_plain fw_proto_ipv4 FMT_NUMERIC = some "--proto-type 0x800 "
    ∧ print_proto_type fw_proto_ipv4 0 = "" ++ "--proto-type IPv4" ++ "" ++ " "
    ∧ print_proto_type fw_proto_ipv4 FMT_NUMERIC = "" ++ "--proto-type 0x800" ++ "" ++ " " :=
  ⟨by decide, by decide,
   (print_proto_type_ipv4 env_plain fw_proto_ipv4 0 (by decide) (by decide)).1 (by decide),
   (print_proto_type_ipv4 env_plain fw_proto_ipv4 FMT_NUMERIC (by decide) (by decide)).2.1
     (by decide)⟩

/-- Counterexample of C10: when the counter cannot be allocated, the builder
returns -1 for the rule `-j ACCEPT` and the rule, empty before the call, holds
the protocol-length match afterwards. -/
theorem nft_arp_add_failure_leaves_matches :
    nft_arp_add env_no_counter [] fw_accept
      = some (-1, [.payload 5 1, .cmp NFT_CMP_EQ 4 1])
    ∧ add_counters env_no_counter [.payload 5 1, .cmp NFT_CMP_EQ 4 1] 0 0
      = (-12, [.payload 5 1, .cmp NFT_CMP_EQ 4 1]) := by
  decide

/-- C10 (amended): when the counter emission fails, `nft_arp_add` returns -1
and emits neither counter nor terminal action; the rule is left holding the
match expressions emitted before the counter, which always include the
protocol-length match at offset 5. -/
theorem nft_arp_add_counter_failure (env : nft_shared) (r : List nft_rule_expr)
    (fw : arpt_entry) (h : (add_counters env (nft_arp_add_matches env r fw)
      fw.counters.pcnt fw.counters.bcnt).1 < 0) :
    nft_arp_add env r fw = some (-1, nft_arp_add_matches env r fw)
    ∧ ∃ pre post, nft_arp_add_matches env r fw
        = pre ++ [.payload 5 1, .cmp NFT_CMP_EQ 4 1] ++ post := by
  constructor
  · have h2 : (add_counters env (nft_arp_add_matches env r fw)
        fw.counters.pcnt fw.counters.bcnt).2 = nft_arp_add_matches env r fw := by
      unfold add_counters at h ⊢
      split_ifs at h ⊢
      · simp at h
      · rfl
    unfold nft_arp_add
    simp only [h, if_true, h2]
  · rw [nft_arp_add_matches_eq]
    refine ⟨nft_arp_add_ifaces env r fw ++ ((if fw.arp.arhrd ≠ 0 then
            [.payload 0 2, .cmp NFT_CMP_EQ (fw.arp.arhrd % 2 ^ 16) 2] else [])
      ++ ((if fw.arp.arpro ≠ 0 then
            [.payload 2 2, .cmp NFT_CMP_EQ (fw.arp.arpro % 2 ^ 16) 2] else [])
      ++ (if fw.arp.arhln ≠ 0 then
            [.payload 4 1, .cmp (hln_op fw) (fw.arp.arhln % 2 ^ 8) 1] else []))),
      ((if fw.arp.arpop ≠ 0 then
            [.payload 6 2, .cmp NFT_CMP_EQ (fw.arp.arpop % 2 ^ 16) 2] else [])
      ++ ((if fw.arp.src_devaddr.addr.getD 0 0 ≠ 0 then
            [.payload 8 fw.arp.arhln, .cmp NFT_CMP_EQ
              (bytes_value fw.arp.src_devaddr.addr % 2 ^ (8 * fw.arp.arhln)) fw.arp.arhln] else [])
      ++ ((if fw.arp.src ≠ 0 then
            [.payload (8 + fw.arp.arhln) 4, .cmp (addr_op fw) (fw.arp.src % 2 ^ 32) 4] else [])
      ++ ((if fw.arp.tgt_devaddr.addr.getD 0 0 ≠ 0 then
            [.payload (8 + fw.arp.arhln + 4) fw.arp.arhln, .cmp NFT_CMP_EQ
              (bytes_value fw.arp.tgt_devaddr.addr % 2 ^ (8 * fw.arp.arhln)) fw.arp.arhln] else [])
      ++ (if fw.arp.tgt ≠ 0 then
            [.payload (8 + fw.arp.arhln + 4) 4, .cmp (addr_op fw) (fw.arp.tgt % 2 ^ 32) 4]
          else []))))), ?_⟩
    simp only [List.append_assoc]

/-- Witness of C10 (amended): the rule `-j ACCEPT` on the host that cannot
allocate a counter. -/
theorem nft_arp_add_counter_failure_witness :
    nft_arp_add env_no_counter [] fw_accept
      = some (-1, nft_arp_add_matches env_no_counter [] fw_accept)
    ∧ ∃ pre post, nft_arp_add_matches env_no_counter [] fw_accept
        = pre ++ [.payload 5 1, .cmp NFT_CMP_EQ 4 1] ++ post :=
  nft_arp_add_counter_failure env_no_counter [] fw_accept (by decide)

/-! ### The parser loop: enough fuel, and its unfolding -/

/-- Setting bits that are already set changes nothing. -/
theorem or_eq_self_of_and_eq (x b : Nat) (h : x &&& b = b) : x ||| b = x := by
  apply Nat.eq_of_testBit_eq
  intro i
  have hi := congrArg (fun y => y.testBit i) h
  simp only [Nat.testBit_and, Nat.testBit_or] at hi ⊢
  cases hx : x.testBit i <;> cases hb : b.testBit i <;> simp_all

/-- C12: `nft_arp_is_same(a, b)` is true exactly when the source addresses, the
target addresses, the protocol types, the flags and the invflags of a and b are
equal, the source mask of a equals the target mask of b, and
`is_same_interfaces` holds for their interface names and masks. -/
theorem nft_arp_is_same_iff (env : nft_shared) (a b : arpt_entry) :
    nft_arp_is_same env a b = true ↔
      (a.arp.src = b.arp.src ∧ a.arp.tgt = b.arp.tgt ∧ a.arp.arpro = b.arp.arpro
        ∧ a.arp.flags = b.arp.flags ∧ a.arp.invflags = b.arp.invflags
        ∧ a.arp.smsk = b.arp.tmsk
        ∧ env.is_same_interfaces a.arp.iniface a.arp.outiface a.arp.iniface_mask
            a.arp.outiface_mask b.arp.iniface b.arp.outiface b.arp.iniface_mask
            b.arp.outiface_mask = true) := by
  unfold nft_arp_is_same
  constructor
  · intro h
    split_ifs at h with hc
    simp only [not_or, ne_eq, not_not] at hc
    exact ⟨hc.1, hc.2.1, hc.2.2.2.1, hc.2.2.2.2.1, hc.2.2.2.2.2, hc.2.2.1, h⟩
  · rintro ⟨h1, h2, h3, h4, h5, h6, h7⟩
    simp [h1, h2, h3, h4, h5, h6, h7]

/-- C13: a legacy bitmask made of one unmapped bit does not translate to 0.
For the opcode inversion `ARPT_INV_ARPOP` alone, `arpt_to_ipt_flags` returns
0x7F, every bit of the kernel vocabulary: the test against `ARPT_INV_MASK`
holds for any set bit and ORs in `IPT_INV_MASK`. -/
theorem arpt_to_ipt_flags_unmapped_bit :
    arpt_to_ipt_flags ARPT_INV_ARPOP = 0x7F
      ∧ ARPT_INV_ARPOP &&& (ARPT_INV_VIA_IN ||| ARPT_INV_VIA_OUT ||| ARPT_INV_SRCIP
          ||| ARPT_INV_TGTIP ||| ARPT_INV_ARPPRO) = 0 := by
  decide

/-- C14: when the counter is emitted, `nft_arp_add` resolves the terminal
action by its name and returns what that one emission returns: the accept,
drop and return verdicts for the three reserved names, an extension invocation
for any other name the registry resolves, and a jump to the chain of that name
otherwise. -/
theorem nft_arp_add_resolves_target (env : nft_shared) (r : List nft_rule_expr)
    (fw : arpt_entry) (t : xt_entry_target)
    (hc : env.expr_alloc "counter" = true) (ht : nft_arp_get_target fw = some t) :
    (t.name = "ACCEPT" → nft_arp_add env r fw = some (add_verdict env
        (nft_arp_add_matches env r fw
          ++ [.counter (fw.counters.pcnt % 2 ^ 64) (fw.counters.bcnt % 2 ^ 64)]) NF_ACCEPT))
    ∧ (t.name = "DROP" → nft_arp_add env r fw = some (add_verdict env
        (nft_arp_add_matches env r fw
          ++ [.counter (fw.counters.pcnt % 2 ^ 64) (fw.counters.bcnt % 2 ^ 64)]) NF_DROP))
    ∧ (t.name = "RETURN" → nft_arp_add env r fw = some (add_verdict env
        (nft_arp_add_matches env r fw
          ++ [.counter (fw.counters.pcnt % 2 ^ 64) (fw.counters.bcnt % 2 ^ 64)]) NFT_RETURN))
    ∧ (t.name ≠ "ACCEPT" → t.name ≠ "DROP" → t.name ≠ "RETURN" →
        (env.xtables_find_target t.name).isSome = true →
        nft_arp_add env r fw = some (add_target env
          (nft_arp_add_matches env r fw
            ++ [.counter (fw.counters.pcnt % 2 ^ 64) (fw.counters.bcnt % 2 ^ 64)]) t))
    ∧ (t.name ≠ "ACCEPT" → t.name ≠ "DROP" → t.name ≠ "RETURN" →
        (env.xtables_find_target t.name).isSome = false →
        nft_arp_add env r fw = some (add_jumpto env
          (nft_arp_add_matches env r fw
            ++ [.counter (fw.counters.pcnt % 2 ^ 64) (fw.counters.bcnt % 2 ^ 64)]) t.name
          NFT_JUMP)) := by
  have hlt : ¬ ((0 : Int) < 0) := by decide
  have hadd : nft_arp_add env r fw = some (nft_arp_add_target env
      (nft_arp_add_matches env r fw
        ++ [.counter (fw.counters.pcnt % 2 ^ 64) (fw.counters.bcnt % 2 ^ 64)]) t) := by
    unfold nft_arp_add add_counters
    simp only [hc, if_true, hlt, if_false, ht]
  rw [hadd]
  unfold nft_arp_add_target
  refine ⟨?_, ?_, ?_, ?_, ?_⟩
  · intro h
    simp [h, XTC_LABEL_ACCEPT]
  · intro h
    simp [h, XTC_LABEL_ACCEPT, XTC_LABEL_DROP]
  · intro h
    simp [h, XTC_LABEL_ACCEPT, XTC_LABEL_DROP, XTC_LABEL_RETURN]
  · intro h1 h2 h3 h4
    simp [h1, h2, h3, h4, XTC_LABEL_ACCEPT, XTC_LABEL_DROP, XTC_LABEL_RETURN]
  · intro h1 h2 h3 h4
    simp [h1, h2, h3, h4, XTC_LABEL_ACCEPT, XTC_LABEL_DROP, XTC_LABEL_RETURN]

/-- Witness of C14: the rule `-j ACCEPT` on the plain host emits the accept
verdict after the counter and returns 0. -/
theorem nft_arp_add_resolves_target_witness :
    nft_arp_add env_plain [] fw_accept = some (add_verdict env_plain
        (nft_arp_add_matches env_plain [] fw_accept
          ++ [.counter (fw_accept.counters.pcnt % 2 ^ 64) (fw_accept.counters.bcnt % 2 ^ 64)])
        NF_ACCEPT)
    ∧ add_verdict env_plain
        (nft_arp_add_matches env_plain [] fw_accept
          ++ [.counter (fw_accept.counters.pcnt % 2 ^ 64) (fw_accept.counters.bcnt % 2 ^ 64)])
        NF_ACCEPT
      = (0, [.payload 5 1, .cmp NFT_CMP_EQ 4 1, .counter 0 0, .immediate NF_ACCEPT ""]) :=
  ⟨(nft_arp_add_resolves_target env_plain [] fw_accept (std_target "ACCEPT") (by decide)
      (by decide)).1 (by decide),
   by decide⟩

/-- C15: a payload offset that is none of 0, 2, 4, 6, 8+L and 8+L+4, where L is
the hardware-address-length of the record, leaves the record as it is and takes
nothing from the iterator. -/
theorem nft_arp_parse_payload_other_offset (iter : List nft_rule_expr) (offset : Nat)
    (fw : arpt_entry) (h0 : offset ≠ 0) (h2 : offset ≠ 2) (h4 : offset ≠ 4) (h6 : offset ≠ 6)
    (hs : offset ≠ 8 + fw.arp.arhln) (ht : offset ≠ 8 + fw.arp.arhln + 4) :
    nft_arp_parse_payload iter offset fw = some (fw, iter) := by
  have hn : ¬ ((fw.arp.arhln : Int) < 0) := by omega
  simp [nft_arp_parse_payload, offsetof_ar_hrd, offsetof_ar_pro, offsetof_ar_op,
    offsetof_ar_hln, sizeof_arphdr, sizeof_in_addr, h0, h2, h4, h6, hs, ht, hn]

/-- Witness of C15: the protocol-length match at offset 5, met with
hardware-address-length 6 in the record. -/
theorem nft_arp_parse_payload_other_offset_witness :
    nft_arp_parse_payload [.cmp NFT_CMP_EQ 4 1] 5 fw_hln6
      = some (fw_hln6, [.cmp NFT_CMP_EQ 4 1]) :=
  nft_arp_parse_payload_other_offset [.cmp NFT_CMP_EQ 4 1] 5 fw_hln6 (by decide) (by decide)
    (by decide) (by decide) (by decide) (by decide)

/-- C16: a comparison after a payload expression at offset 0, 2 or 6 sets the
hardware type, the protocol type or the opcode to the compared 16-bit value and
its mask to 0xffff, and changes nothing else but the inversion flags: they get
the bit `ARPT_INV_ARPHRD`, `ARPT_INV_ARPPRO` or `ARPT_INV_ARPOP` ORed in when
the comparison is negated, which changes them only if the bit was not set
yet, and they stay as they are when it is not negated. -/
theorem nft_arp_parse_payload_type_proto_opcode (fw : arpt_entry) (op data len : Nat)
    (rest : List nft_rule_expr) :
    nft_arp_parse_payload (.cmp op data len :: rest) 0 fw
      = some (set_inv { fw with arp := { fw.arp with arhrd := data % 2 ^ 16, arhrd_mask := 0xffff } }
          (op == NFT_CMP_NEQ) ARPT_INV_ARPHRD, rest)
    ∧ nft_arp_parse_payload (.cmp op data len :: rest) 2 fw
      = some (set_inv { fw with arp := { fw.arp with arpro := data % 2 ^ 16, arpro_mask := 0xffff } }
          (op == NFT_CMP_NEQ) ARPT_INV_ARPPRO, rest)
    ∧ nft_arp_parse_payload (.cmp op data len :: rest) 6 fw
      = some (set_inv { fw with arp := { fw.arp with arpop := data % 2 ^ 16, arpop_mask := 0xffff } }
          (op == NFT_CMP_NEQ) ARPT_INV_ARPOP, rest)
    ∧ (∀ (fw0 : arpt_entry) (bit : Nat), set_inv fw0 false bit = fw0)
    ∧ (∀ (fw0 : arpt_entry) (bit : Nat), set_inv fw0 true bit
        = { fw0 with arp := { fw0.arp with invflags := (fw0.arp.invflags ||| bit) % 2 ^ 16 } })
    ∧ (∀ (fw0 : arpt_entry) (bit : Nat), fw0.arp.invflags < 2 ^ 16 →
        fw0.arp.invflags &&& bit = bit → set_inv fw0 true bit = fw0) := by
  refine ⟨?_, ?_, ?_, fun _ _ => rfl, fun _ _ => rfl, ?_⟩
  · simp [nft_arp_parse_payload, get_cmp_data, offsetof_ar_hrd]
  · simp [nft_arp_parse_payload, get_cmp_data, offsetof_ar_hrd, offsetof_ar_pro]
  · simp [nft_arp_parse_payload, get_cmp_data, offsetof_ar_hrd, offsetof_ar_pro, offsetof_ar_op]
  · intro fw0 bit hlt hbit
    have hor := or_eq_self_of_and_eq _ _ hbit
    simp only [set_inv, if_true, hor, Nat.mod_eq_of_lt hlt]

/-- Witness of C16: a negated comparison with 0x0100 at offset 6, met by a
record that already has the opcode inversion bit. -/
theorem nft_arp_parse_payload_type_proto_opcode_witness :
    set_inv { arpt_entry_zero with arp := { arpt_entry_zero.arp with
        arpop := 0x0100, arpop_mask := 0xffff, invflags := ARPT_INV_ARPOP } } true ARPT_INV_ARPOP
      = { arpt_entry_zero with arp := { arpt_entry_zero.arp with
        arpop := 0x0100, arpop_mask := 0xffff, invflags := ARPT_INV_ARPOP } } :=
  (nft_arp_parse_payload_type_proto_opcode arpt_entry_zero NFT_CMP_NEQ 0x0100 2 []).2.2.2.2.2
    _ ARPT_INV_ARPOP (by decide) (by decide)

/-- C17: when `is_same` holds and both terminal action names are equal,
`nft_arp_rule_find` returns true for every name other than `mangle` and
`CLASSIFY`; for these two it returns whether the action data of both targets
agree on the first n bytes, n being the candidate's `target_size` minus the size
of the fixed target header (computed in `size_t`). -/
theorem nft_arp_rule_find_same_name (env : nft_shared)
    (is_same : arpt_entry → arpt_entry → Bool) (r : List nft_rule_expr)
    (fw this : arpt_entry) (t_fw t_this : xt_entry_target)
    (hparse : nft_rule_to_arpt_entry env r arpt_entry_zero = some this)
    (hsame : is_same fw this = true)
    (hfw : nft_arp_get_target fw = some t_fw)
    (hthis : nft_arp_get_target this = some t_this)
    (hname : t_fw.name = t_this.name) :
    ((t_fw.name = "mangle" ∨ t_fw.name = "CLASSIFY") →
      nft_arp_rule_find env is_same r fw = some (decide
        (t_fw.data.take ((t_fw.target_size + 2 ^ 64 - sizeof_xt_entry_target) % 2 ^ 64)
          = t_this.data.take ((t_fw.target_size + 2 ^ 64 - sizeof_xt_entry_target) % 2 ^ 64))))
    ∧ (¬ (t_fw.name = "mangle" ∨ t_fw.name = "CLASSIFY") →
      nft_arp_rule_find env is_same r fw = some true)
    ∧ (sizeof_xt_entry_target ≤ t_fw.target_size → t_fw.target_size < 2 ^ 64 →
      (t_fw.target_size + 2 ^ 64 - sizeof_xt_entry_target) % 2 ^ 64
        = t_fw.target_size - sizeof_xt_entry_target) := by
  refine ⟨?_, ?_, ?_⟩
  · intro hsp
    unfold nft_arp_rule_find
    simp only [hparse, hsame, Bool.not_true, Bool.false_eq_true, if_false, hfw, hthis]
    simp only [hname] at hsp ⊢
    simp only [hsp, and_self, if_true, memcmp_ne]
    generalize (t_fw.target_size + 2 ^ 64 - sizeof_xt_entry_target) % 2 ^ 64 = n
    by_cases hd : List.take n t_fw.data = List.take n t_this.data
    · simp [hd]
    · simp [hd]
  · intro hsp
    unfold nft_arp_rule_find
    simp only [hparse, hsame, Bool.not_true, Bool.false_eq_true, if_false, hfw, hthis]
    simp only [hname] at hsp ⊢
    simp [hsp]
  · intro h1 h2
    unfold sizeof_xt_entry_target at h1 ⊢
    omega

/-- Witness of C17: the candidate `-j CLASSIFY --set-class 1:2` against an
installed rule with the same target and the same four bytes of data. -/
theorem nft_arp_rule_find_same_name_witness :
    nft_arp_rule_find env_ext (nft_arp_is_same env_ext) rule_classify fw_classify = some true
    ∧ nft_arp_rule_find env_ext (nft_arp_is_same env_ext) rule_classify fw_classify
      = some (decide (List.take ((36 + 2 ^ 64 - sizeof_xt_entry_target) % 2 ^ 64) [2, 0, 1, 0]
          = List.take ((36 + 2 ^ 64 - sizeof_xt_entry_target) % 2 ^ 64) [2, 0, 1, 0])) :=
  ⟨by decide,
   (nft_arp_rule_find_same_name env_ext (nft_arp_is_same env_ext) rule_classify fw_classify
      (nft_arp_parse_target env_ext
        { target_size := 36, name := "CLASSIFY", revision := 0, data := [2, 0, 1, 0] }
        { arpt_entry_zero with counters := ⟨0, 0⟩ })
      { target_size := 36, name := "CLASSIFY", revision := 0, data := [2, 0, 1, 0] }
      { target_size := 36, name := "CLASSIFY", revision := 0, data := [2, 0, 1, 0] }
      (by decide) (by decide) (by decide) (by decide) (by decide)).1 (by decide)⟩

/-- C19: `parse_quota` does not report a string that is no decimal number. For
`abc` and for the empty string it stores 0 and returns 1, and for `12abc` it
stores 12 and returns 1: `strtoull` is called without an end pointer, and the
only value taken for an error is `(u_int64_t) -1`. -/
theorem parse_quota_accepts_non_numbers :
    parse_quota "abc" = Except.ok (0, 1)
      ∧ parse_quota "" = Except.ok (0, 1)
      ∧ parse_quota "12abc" = Except.ok (12, 1) :=
  ⟨rfl, rfl, rfl⟩

/-- C20: the symbolic branch reads the name table out of bounds for opcode 0.
For the rule `--opcode 0` in textual mode the guard `tmp <= NUMOPCODES` holds,
the index `tmp - 1` is -1, which is outside the nine entries, and
`print_fw_details` has no determined output. -/
theorem print_opcode_zero_out_of_bounds (env : nft_shared) :
    fw_opcode_0.arp.arpop_mask ≠ 0
      ∧ ntohs fw_opcode_0.arp.arpop ≤ NUMOPCODES
      ∧ (0 : Nat) &&& FMT_NUMERIC = 0
      ∧ ((ntohs fw_opcode_0.arp.arpop : Nat) : Int) - 1 = -1
      ∧ opcodes_at (((ntohs fw_opcode_0.arp.arpop : Nat) : Int) - 1) = none
      ∧ opcodes.length = 9
      ∧ print_opcode fw_opcode_0 0 = none
      ∧ print_fw_details env fw_opcode_0 0 = none := by
  refine ⟨by decide, by decide, by decide, by decide, by decide, by decide, by decide, ?_⟩
  have h : print_opcode fw_opcode_0 0 = none := by decide
  simp [print_fw_details, h]

/-! ### The prefix-length loop of `mask_to_dotted` -/

theorem prefix_mask_shift :
    ∀ k < 31, (prefix_mask (k + 1) <<< 1) % 2 ^ 32 = prefix_mask k := by
  decide

/-- A mask of n leading ones makes the loop stop with i = n. -/
theorem mask_to_dotted_loop_prefix :
    ∀ n ≤ 31, mask_to_dotted_loop (prefix_mask n) 32 0xFFFFFFFE = (n : Int) := by
  decide

/-- A mask that is no run of at most k leading ones makes the loop, entered at
the comparison with k leading ones, run to the end. -/
theorem mask_to_dotted_loop_other (m : Nat) :
    ∀ k ≤ 31, (∀ n ≤ k, m ≠ prefix_mask n) →
      mask_to_dotted_loop m (k + 1) (prefix_mask k) = -1 := by
  intro k
  induction k with
  | zero =>
    intro _ h
    have h0 : m ≠ prefix_mask 0 := h 0 (le_refl 0)
    simp [mask_to_dotted_loop, h0]
  | succ k ih =>
    intro hk h
    have h1 : m ≠ prefix_mask (k + 1) := h (k + 1) (le_refl _)
    have hs := prefix_mask_shift k (by omega)
    rw [mask_to_dotted_loop]
    simp only [h1, ne_eq, not_false_eq_true, if_true, hs]
    exact ih (by omega) (fun n hn => h n (by omega))

/-- C18: `mask_to_dotted` on a mask whose host-order value is m returns the
empty string when m is all ones, `/n` in decimal when m is n leading one bits
followed by zeros with n from 0 to 31, and `/` followed by the dotted quad of
the mask for every other m. -/
theorem mask_to_dotted_spec (mask : Nat) :
    (ntohl mask = 0xFFFFFFFF → mask_to_dotted mask = "")
    ∧ (∀ n, n ≤ 31 → ntohl mask = prefix_mask n → mask_to_dotted mask = "/" ++ fmt_d n)
    ∧ (ntohl mask ≠ 0xFFFFFFFF → (∀ n, n ≤ 31 → ntohl mask ≠ prefix_mask n) →
        mask_to_dotted mask = "/" ++ addr_to_dotted mask) := by
  refine ⟨?_, ?_, ?_⟩
  · intro h
    simp [mask_to_dotted, h]
  · intro n hn h
    have hne : ∀ n ≤ 31, prefix_mask n ≠ 0xFFFFFFFF := by decide
    have hl := mask_to_dotted_loop_prefix n hn
    unfold mask_to_dotted
    simp only [h, hne n hn, if_false, hl]
    simp
  · intro h1 h2
    have hl := mask_to_dotted_loop_other (ntohl mask) 31 (le_refl _) h2
    have h31 : prefix_mask 31 = 0xFFFFFFFE := by decide
    rw [h31] at hl
    unfold mask_to_dotted
    simp only [h1, if_false, hl]
    simp

/-- Witness of C18: the mask 255.255.255.0 (24 leading ones in host order), the
mask 255.255.255.255 and the mask 255.0.255.0. -/
theorem mask_to_dotted_spec_witness :
    mask_to_dotted 0x00ffffff = "/" ++ fmt_d 24
    ∧ mask_to_dotted 0x00ffffff = "/24"
    ∧ mask_to_dotted 0xffffffff = ""
    ∧ mask_to_dotted 0x00ff00ff = "/" ++ addr_to_dotted 0x00ff00ff
    ∧ mask_to_dotted 0x00ff00ff = "/255.0.255.0" :=
  ⟨(mask_to_dotted_spec 0x00ffffff).2.1 24 (by decide) (by decide),
   by decide,
   (mask_to_dotted_spec 0xffffffff).1 (by decide),
   (mask_to_dotted_spec 0x00ff00ff).2.2 (by decide) (by decide),
   by decide⟩

/-! ### Parsing a list without a hardware-address-length expression -/

theorem get_cmp_data_snd (iter : List nft_rule_expr) (dlen : Nat) :
    (get_cmp_data iter dlen).2 = iter.tail := by
  unfold get_cmp_data
  split <;> rfl

@[simp] theorem set_inv_arhln (fw : arpt_entry) (inv : Bool) (bit : Nat) :
    (set_inv fw inv bit).arp.arhln = fw.arp.arhln := by
  cases inv <;> rfl

@[simp] theorem set_inv_src (fw : arpt_entry) (inv : Bool) (bit : Nat) :
    (set_inv fw inv bit).arp.src = fw.arp.src := by
  cases inv <;> rfl

@[simp] theorem set_inv_smsk (fw : arpt_entry) (inv : Bool) (bit : Nat) :
    (set_inv fw inv bit).arp.smsk = fw.arp.smsk := by
  cases inv <;> rfl

@[simp] theorem set_inv_tgt (fw : arpt_entry) (inv : Bool) (bit : Nat) :
    (set_inv fw inv bit).arp.tgt = fw.arp.tgt := by
  cases inv <;> rfl

@[simp] theorem set_inv_tmsk (fw : arpt_entry) (inv : Bool) (bit : Nat) :
    (set_inv fw inv bit).arp.tmsk = fw.arp.tmsk := by
  cases inv <;> rfl

/-- The decoder gives back the iterator or its tail. -/
theorem nft_arp_parse_payload_iter (iter iter2 : List nft_rule_expr) (offset : Nat)
    (fw fw2 : arpt_entry) (h : nft_arp_parse_payload iter offset fw = some (fw2, iter2)) :
    iter2 = iter ∨ iter2 = iter.tail := by
  have h2 := get_cmp_data_snd iter 2
  have h4 := get_cmp_data_snd iter 4
  unfold nft_arp_parse_payload at h
  split_ifs at h <;> first
    | (simp only [Option.some.injEq, Prod.mk.injEq] at h; exact Or.inl h.2.symm)
    | (split at h
       · exact absurd h (by simp)
       · rename_i heq
         simp only [Option.some.injEq, Prod.mk.injEq] at h
         try rw [heq] at h2
         try rw [heq] at h4
         rw [← h.2]
         first | exact Or.inr h2 | exact Or.inr h4)

/-- One iteration of the loop gives back the iterator or its tail. -/
theorem nft_rule_to_arpt_entry_step_iter (env : nft_shared) (expr : nft_rule_expr)
    (iter iter2 : List nft_rule_expr) (fw fw2 : arpt_entry)
    (h : nft_rule_to_arpt_entry_step env expr iter fw = some (fw2, iter2)) :
    iter2 = iter ∨ iter2 = iter.tail := by
  unfold nft_rule_to_arpt_entry_step at h
  cases expr with
  | payload o l =>
    simp [nft_rule_expr.name, nft_parse_payload] at h
    exact nft_arp_parse_payload_iter _ _ _ _ _ h
  | meta key =>
    simp [nft_rule_expr.name, nft_parse_meta] at h
    split at h <;> simp at h <;> rw [← h.2] <;> simp
  | cmp _ _ _ =>
    simp [nft_rule_expr.name] at h
    exact Or.inl h.2.symm
  | counter _ _ =>
    simp [nft_rule_expr.name, nft_parse_counter] at h
    exact Or.inl h.2.symm
  | immediate v c =>
    simp [nft_rule_expr.name, nft_parse_immediate] at h
    obtain ⟨_, _, h⟩ := h
    exact Or.inl h.2.symm
  | target n rv d =>
    simp [nft_rule_expr.name, nft_parse_target] at h
    split at h <;> simp at h <;> exact Or.inl h.2.symm
  | other n =>
    dsimp only [nft_rule_expr.name] at h
    split_ifs at h <;>
      simp [nft_parse_counter, nft_parse_payload, nft_parse_meta, nft_parse_immediate,
        nft_parse_target] at h <;> exact Or.inl h.2.symm

/-- The decoder keeps a record without decoded addresses in that state, unless
the offset is 4, or 8 or 12 where the address in question must stay unset. -/
theorem nft_arp_parse_payload_no_address (a b : Prop) (iter iter2 : List nft_rule_expr)
    (offset : Nat) (fw fw2 : arpt_entry)
    (h : nft_arp_parse_payload iter offset fw = some (fw2, iter2))
    (h4 : offset ≠ 4) (h8 : a → offset ≠ 8) (h12 : b → offset ≠ 12)
    (hP : no_address_decoded a b fw) : no_address_decoded a b fw2 := by
  obtain ⟨hl, hs, ht⟩ := hP
  unfold nft_arp_parse_payload at h
  simp only [offsetof_ar_hrd, offsetof_ar_pro, offsetof_ar_op, offsetof_ar_hln, sizeof_arphdr,
    sizeof_in_addr, hl, h4, if_false] at h
  split_ifs at h with c0 c2 c6 cn c8 c12
  all_goals first
    | (simp only [Option.some.injEq, Prod.mk.injEq] at h
       rw [← h.1]
       exact ⟨hl, hs, ht⟩)
    | (split at h
       · exact absurd h (by simp)
       · simp only [Option.some.injEq, Prod.mk.injEq] at h
         rw [← h.1]
         refine ⟨by simp [hl], fun ha => ?_, fun hb => ?_⟩
         · first
             | (simpa using hs ha)
             | exact absurd (by omega) (h8 ha)
         · first
             | (simpa using ht hb)
             | exact absurd (by omega) (h12 hb))

/-- One iteration of the loop keeps a record without decoded addresses in that
state, under the same conditions on a payload expression. -/
theorem nft_rule_to_arpt_entry_step_no_address (env : nft_shared) (a b : Prop)
    (expr : nft_rule_expr) (iter iter2 : List nft_rule_expr) (fw fw2 : arpt_entry)
    (h : nft_rule_to_arpt_entry_step env expr iter fw = some (fw2, iter2))
    (h4 : is_payload_at 4 expr = false) (h8 : a → is_payload_at 8 expr = false)
    (h12 : b → is_payload_at 12 expr = false)
    (hP : no_address_decoded a b fw) : no_address_decoded a b fw2 := by
  unfold nft_rule_to_arpt_entry_step at h
  cases expr with
  | payload o l =>
    simp [nft_rule_expr.name, nft_parse_payload] at h
    simp only [is_payload_at, beq_eq_false_iff_ne, ne_eq] at h4 h8 h12
    exact nft_arp_parse_payload_no_address a b _ _ _ _ _ h h4 h8 h12 hP
  | meta key =>
    simp [nft_rule_expr.name, nft_parse_meta] at h
    split at h <;> simp at h <;> rw [← h.1] <;> exact hP
  | cmp _ _ _ =>
    simp [nft_rule_expr.name] at h
    rw [← h.1]
    exact hP
  | counter _ _ =>
    simp [nft_rule_expr.name, nft_parse_counter] at h
    rw [← h.1]
    exact hP
  | immediate v c =>
    simp [nft_rule_expr.name, nft_parse_immediate] at h
    obtain ⟨fw3, h3, h⟩ := h
    rw [← h.1]
    have harp : fw3.arp = fw.arp := by
      split_ifs at h3 <;>
        (simp only [nft_arp_parse_immediate] at h3
         split at h3
         · exact absurd h3 (by simp)
         · simp only [Option.some.injEq] at h3
           rw [← h3]
           rfl)
    unfold no_address_decoded at hP ⊢
    rw [harp]
    exact hP
  | target n rv d =>
    simp [nft_rule_expr.name, nft_parse_target] at h
    split at h <;> simp at h <;> rw [← h.1] <;> exact hP
  | other n =>
    dsimp only [nft_rule_expr.name] at h
    split_ifs at h <;>
      simp [nft_parse_counter, nft_parse_payload, nft_parse_meta, nft_parse_immediate,
        nft_parse_target] at h <;> rw [← h.1] <;> exact hP

/-- The loop keeps a record without decoded addresses in that state when the
iterator holds no payload expression at offset 4, none at offset 8 if the
source is to stay unset, and none at offset 12 if the target is. -/
theorem nft_rule_to_arpt_entry_loop_no_address (env : nft_shared) (a b : Prop) :
    ∀ (n : Nat) (iter : List nft_rule_expr) (fw fw2 : arpt_entry),
      nft_rule_to_arpt_entry_loop env n iter fw = some fw2 →
      (∀ e ∈ iter, is_payload_at 4 e = false) →
      (a → ∀ e ∈ iter, is_payload_at 8 e = false) →
      (b → ∀ e ∈ iter, is_payload_at 12 e = false) →
      no_address_decoded a b fw → no_address_decoded a b fw2 := by
  intro n
  induction n with
  | zero =>
    intro iter fw fw2 h _ _ _ hP
    cases iter with
    | nil =>
      simp only [nft_rule_to_arpt_entry_loop, Option.some.injEq] at h
      rw [← h]
      exact hP
    | cons e it => simp [nft_rule_to_arpt_entry_loop] at h
  | succ n ih =>
    intro iter fw fw2 h h4 h8 h12 hP
    cases iter with
    | nil =>
      simp only [nft_rule_to_arpt_entry_loop, Option.some.injEq] at h
      rw [← h]
      exact hP
    | cons e it =>
      simp only [nft_rule_to_arpt_entry_loop] at h
      cases hstep : nft_rule_to_arpt_entry_step env e it fw with
      | none => simp [hstep] at h
      | some p =>
        obtain ⟨fw3, it3⟩ := p
        simp only [hstep] at h
        have hsub : ∀ x ∈ it3, x ∈ e :: it := by
          intro x hx
          rcases nft_rule_to_arpt_entry_step_iter env e it it3 fw fw3 hstep with h1 | h1
          · rw [h1] at hx
            exact List.mem_cons_of_mem _ hx
          · rw [h1] at hx
            exact List.mem_cons_of_mem _ (List.mem_of_mem_tail hx)
        have hP3 := nft_rule_to_arpt_entry_step_no_address env a b e it it3 fw fw3 hstep
          (h4 e (List.mem_cons_self _ _)) (fun ha => h8 ha e (List.mem_cons_self _ _))
          (fun hb => h12 hb e (List.mem_cons_self _ _)) hP
        exact ih it3 fw3 fw2 h (fun x hx => h4 x (hsub x hx))
          (fun ha x hx => h8 ha x (hsub x hx)) (fun hb x hx => h12 hb x (hsub x hx)) hP3

/-- Counterexample of C11: the expressions the builder emits for
`-s 10.0.0.1 -j ACCEPT` hold no hardware-address-length expression, and parsing
them into the zero record decodes the payload comparison at offset 8 as the
source address, with an all-ones mask. -/
theorem nft_rule_to_arpt_entry_decodes_without_hln :
    rule_src_host.any (is_payload_at 4) = false
    ∧ nft_arp_add env_plain [] fw_src_host = some (0, rule_src_host)
    ∧ (nft_rule_to_arpt_entry env_plain rule_src_host arpt_entry_zero).map
        (fun fw => (fw.arp.src, fw.arp.smsk)) = some (0x0100000a, 0xffffffff) := by
  decide

/-- C11 (amended): parsing into the zero record a list with no payload
expression at offset 4 keeps the hardware-address-length 0 and classifies the
address region with it: the source address and mask stay unset when the list
has no payload expression at offset 8, the target address and mask stay unset
when it has none at offset 12, and a comparison after a payload expression at
offset 8 (at offset 12) is decoded as the source (the target) protocol
address. -/
theorem nft_rule_to_arpt_entry_without_hln (env : nft_shared) (r : List nft_rule_expr)
    (fw : arpt_entry) (h4 : r.any (is_payload_at 4) = false)
    (hparse : nft_rule_to_arpt_entry env r arpt_entry_zero = some fw) :
    fw.arp.arhln = 0
    ∧ (r.any (is_payload_at 8) = false → fw.arp.src = 0 ∧ fw.arp.smsk = 0)
    ∧ (r.any (is_payload_at 12) = false → fw.arp.tgt = 0 ∧ fw.arp.tmsk = 0)
    ∧ (∀ (fw0 : arpt_entry) (op data len : Nat) (rest : List nft_rule_expr),
        fw0.arp.arhln = 0 →
        nft_arp_parse_payload (.cmp op data len :: rest) 8 fw0
          = some (set_inv { fw0 with arp := { fw0.arp with
              src := data % 2 ^ 32, smsk := 0xffffffff } } (op == NFT_CMP_NEQ) ARPT_INV_SRCIP,
            rest))
    ∧ (∀ (fw0 : arpt_entry) (op data len : Nat) (rest : List nft_rule_expr),
        fw0.arp.arhln = 0 →
        nft_arp_parse_payload (.cmp op data len :: rest) 12 fw0
          = some (set_inv { fw0 with arp := { fw0.arp with
              tgt := data % 2 ^ 32, tmsk := 0xffffffff } } (op == NFT_CMP_NEQ) ARPT_INV_TGTIP,
            rest)) := by
  have hinv : no_address_decoded (r.any (is_payload_at 8) = false)
      (r.any (is_payload_at 12) = false) fw := by
    have hzero : no_address_decoded (r.any (is_payload_at 8) = false)
        (r.any (is_payload_at 12) = false) arpt_entry_zero :=
      ⟨rfl, fun _ => ⟨rfl, rfl⟩, fun _ => ⟨rfl, rfl⟩⟩
    unfold nft_rule_to_arpt_entry at hparse
    split_ifs at hparse
    · refine nft_rule_to_arpt_entry_loop_no_address env _ _ r.length r arpt_entry_zero fw hparse
        ?_ ?_ ?_ hzero
      · intro e he
        have := List.any_eq_false.mp h4 e he
        simpa using this
      · intro h8 e he
        have := List.any_eq_false.mp h8 e he
        simpa using this
      · intro h12 e he
        have := List.any_eq_false.mp h12 e he
        simpa using this
    · simp only [Option.some.injEq] at hparse
      rw [← hparse]
      exact hzero
  refine ⟨hinv.1, hinv.2.1, hinv.2.2, ?_, ?_⟩
  · intro fw0 op data len rest hl
    simp [nft_arp_parse_payload, get_cmp_data, offsetof_ar_hrd, offsetof_ar_pro, offsetof_ar_op,
      offsetof_ar_hln, sizeof_arphdr, hl]
  · intro fw0 op data len rest hl
    simp [nft_arp_parse_payload, get_cmp_data, offsetof_ar_hrd, offsetof_ar_pro, offsetof_ar_op,
      offsetof_ar_hln, sizeof_arphdr, sizeof_in_addr, hl]

/-- Witness of C11 (amended): the installed rule with no match and the verdict
`DROP`, which has payload expressions at offset 5 only. -/
theorem nft_rule_to_arpt_entry_without_hln_witness :
    (nft_arp_parse_target env_plain (std_target "DROP") arpt_entry_zero).arp.arhln = 0
    ∧ (nft_arp_parse_target env_plain (std_target "DROP") arpt_entry_zero).arp.src = 0
    ∧ (nft_arp_parse_target env_plain (std_target "DROP") arpt_entry_zero).arp.smsk = 0
    ∧ (nft_arp_parse_target env_plain (std_target "DROP") arpt_entry_zero).arp.tgt = 0
    ∧ (nft_arp_parse_target env_plain (std_target "DROP") arpt_entry_zero).arp.tmsk = 0 :=
  have h := nft_rule_to_arpt_entry_without_hln env_plain rule_drop
    (nft_arp_parse_target env_plain (std_target "DROP") arpt_entry_zero) (by decide) (by decide)
  ⟨h.1, (h.2.1 (by decide)).1, (h.2.1 (by decide)).2, (h.2.2.1 (by decide)).1,
    (h.2.2.1 (by decide)).2⟩

/-- C21: two rules that differ in the opcode only are not always judged the
same. The rules `-s 10.0.0.1 --opcode 1 -j ACCEPT` and
`-s 10.0.0.1 --opcode 2 -j ACCEPT` differ in the opcode only and
`nft_arp_is_same` answers false on them, on every host: line 626 compares the
source mask of the first with the target mask of the second. The opcode is not
what decides: the first rule gets the same answer against itself. -/
theorem nft_arp_is_same_opcode_pair_differs (env : nft_shared) :
    nft_arp_is_same env fw_src_op1 fw_src_op2 = false
    ∧ fw_src_op2 = { fw_src_op1 with arp := { fw_src_op1.arp with arpop := 0x0200 } }
    ∧ fw_src_op1.arp.arpop ≠ fw_src_op2.arp.arpop
    ∧ nft_arp_is_same env fw_src_op1 fw_src_op1 = false
    ∧ fw_src_op1.arp.smsk = 0xffffffff ∧ fw_src_op2.arp.tmsk = 0 := by
  refine ⟨?_, rfl, by decide, ?_, rfl, rfl⟩
  · simp [nft_arp_is_same, fw_src_op1, fw_src_op2, fw_accept, arpt_entry_zero]
  · simp [nft_arp_is_same, fw_src_op1, fw_accept, arpt_entry_zero]

/-- The fields `nft_arp_is_same(a, b)` reads: of a the source and target
addresses, the source mask, the protocol type, the flags, the invflags and the
interface names and masks, and of b the same with the target mask in place of
the source mask. Records that agree on these get the same answer, whatever
their opcode, hardware type, hardware-address-length, hardware addresses, the
masks of these, the target mask of a, the source mask of b, the counters and
the terminal action; a change of opcode on either side never changes the
answer, so a rule and its copy with another opcode get the answer the rule
gets against itself. -/
theorem nft_arp_is_same_ignores (env : nft_shared) (a a2 b b2 : arpt_entry) :
    ((a.arp.src = a2.arp.src ∧ a.arp.tgt = a2.arp.tgt ∧ a.arp.smsk = a2.arp.smsk
        ∧ a.arp.arpro = a2.arp.arpro ∧ a.arp.flags = a2.arp.flags
        ∧ a.arp.invflags = a2.arp.invflags
        ∧ a.arp.iniface = a2.arp.iniface ∧ a.arp.outiface = a2.arp.outiface
        ∧ a.arp.iniface_mask = a2.arp.iniface_mask
        ∧ a.arp.outiface_mask = a2.arp.outiface_mask) →
      nft_arp_is_same env a b = nft_arp_is_same env a2 b)
    ∧ ((b.arp.src = b2.arp.src ∧ b.arp.tgt = b2.arp.tgt ∧ b.arp.tmsk = b2.arp.tmsk
        ∧ b.arp.arpro = b2.arp.arpro ∧ b.arp.flags = b2.arp.flags
        ∧ b.arp.invflags = b2.arp.invflags
        ∧ b.arp.iniface = b2.arp.iniface ∧ b.arp.outiface = b2.arp.outiface
        ∧ b.arp.iniface_mask = b2.arp.iniface_mask
        ∧ b.arp.outiface_mask = b2.arp.outiface_mask) →
      nft_arp_is_same env a b = nft_arp_is_same env a b2)
    ∧ (∀ (op mask : Nat),
        nft_arp_is_same env { a with arp := { a.arp with arpop := op, arpop_mask := mask } } b
          = nft_arp_is_same env a b
        ∧ nft_arp_is_same env a { b with arp := { b.arp with arpop := op, arpop_mask := mask } }
          = nft_arp_is_same env a b)
    ∧ (∀ (op mask : Nat),
        nft_arp_is_same env a { a with arp := { a.arp with arpop := op, arpop_mask := mask } }
          = nft_arp_is_same env a a)
    ∧ (∀ (op mask : Nat), a.arp.smsk = a.arp.tmsk →
        env.is_same_interfaces a.arp.iniface a.arp.outiface a.arp.iniface_mask
          a.arp.outiface_mask a.arp.iniface a.arp.outiface a.arp.iniface_mask
          a.arp.outiface_mask = true →
        nft_arp_is_same env a { a with arp := { a.arp with arpop := op, arpop_mask := mask } }
          = true) := by
  refine ⟨?_, ?_, fun _ _ => ⟨rfl, rfl⟩, fun _ _ => rfl, ?_⟩
  · rintro ⟨h1, h2, h3, h4, h5, h6, h7, h8, h9, h10⟩
    unfold nft_arp_is_same
    rw [h1, h2, h3, h4, h5, h6, h7, h8, h9, h10]
  · rintro ⟨h1, h2, h3, h4, h5, h6, h7, h8, h9, h10⟩
    unfold nft_arp_is_same
    rw [h1, h2, h3, h4, h5, h6, h7, h8, h9, h10]
  · intro op mask hm hi
    unfold nft_arp_is_same
    simp [hm, hi]

/-- An instance of `nft_arp_is_same_ignores`: the rule
`-s 10.0.0.1 -d 10.0.0.2 --opcode 1`, whose source and target masks are equal,
against its copy with opcode 2; and `-j ACCEPT` and `--opcode 255 -j ACCEPT`
against `-j ACCEPT`. -/
theorem nft_arp_is_same_ignores_witness :
    nft_arp_is_same env_plain fw_src_tgt_op1
        { fw_src_tgt_op1 with arp := { fw_src_tgt_op1.arp with
            arpop := 0x0200, arpop_mask := 0xffff } } = true
    ∧ nft_arp_is_same env_plain fw_accept fw_accept
        = nft_arp_is_same env_plain fw_opcode_255 fw_accept :=
  ⟨(nft_arp_is_same_ignores env_plain fw_src_tgt_op1 fw_src_tgt_op1 fw_src_tgt_op1
      fw_src_tgt_op1).2.2.2.2 0x0200 0xffff (by decide) (by decide),
   (nft_arp_is_same_ignores env_plain fw_accept fw_opcode_255 fw_accept fw_accept).1
      (by decide)⟩

/-- The opcode inversion bit is set once it has been ORed in. -/
theorem or_arpop_and_arpop (x : Nat) :
    (x ||| ARPT_INV_ARPOP) % 2 ^ 16 &&& ARPT_INV_ARPOP = ARPT_INV_ARPOP := by
  have h6 : ARPT_INV_ARPOP = 2 ^ 6 := rfl
  rw [h6]
  apply Nat.eq_of_testBit_eq
  intro i
  simp only [Nat.testBit_and, Nat.testBit_mod_two_pow, Nat.testBit_or, Nat.testBit_two_pow]
  by_cases hi : 6 = i
  · subst hi
    simp
  · simp [hi]

/-- ORing in the opcode inversion bit leaves the hardware-length inversion bit. -/
theorem or_arpop_and_arphln (x : Nat) :
    (x ||| ARPT_INV_ARPOP) % 2 ^ 16 &&& ARPT_INV_ARPHLN = x &&& ARPT_INV_ARPHLN := by
  have h6 : ARPT_INV_ARPOP = 2 ^ 6 := rfl
  have h9 : ARPT_INV_ARPHLN = 2 ^ 9 := rfl
  rw [h6, h9]
  apply Nat.eq_of_testBit_eq
  intro i
  simp only [Nat.testBit_and, Nat.testBit_mod_two_pow, Nat.testBit_or, Nat.testBit_two_pow]
  by_cases hi : 9 = i
  · subst hi
    simp
  · simp [hi]

/-- C22: a comparison after a payload expression at offset 4 sets the
hardware-address-length to the compared byte and its mask to 0xff; when the
comparison is negated the opcode inversion bit `ARPT_INV_ARPOP` is set, and in
either case the hardware-length inversion bit `ARPT_INV_ARPHLN` is left as it
was. -/
theorem nft_arp_parse_payload_hln (fw : arpt_entry) (op data len : Nat)
    (rest : List nft_rule_expr) :
    nft_arp_parse_payload (.cmp op data len :: rest) 4 fw
      = some (set_inv { fw with arp := { fw.arp with arhln := data % 2 ^ 8, arhln_mask := 0xff } }
          (op == NFT_CMP_NEQ) ARPT_INV_ARPOP, rest)
    ∧ (data < 2 ^ 8 → data % 2 ^ 8 = data)
    ∧ (∀ (fw0 : arpt_entry),
        (set_inv fw0 true ARPT_INV_ARPOP).arp.invflags &&& ARPT_INV_ARPOP = ARPT_INV_ARPOP)
    ∧ (∀ (fw0 : arpt_entry) (inv : Bool),
        (set_inv fw0 inv ARPT_INV_ARPOP).arp.invflags &&& ARPT_INV_ARPHLN
          = fw0.arp.invflags &&& ARPT_INV_ARPHLN) := by
  refine ⟨?_, fun h => Nat.mod_eq_of_lt h, ?_, ?_⟩
  · have hm : data % 65536 % 256 = data % 256 := by omega
    simp [nft_arp_parse_payload, get_cmp_data, offsetof_ar_hrd, offsetof_ar_pro, offsetof_ar_op,
      offsetof_ar_hln, hm]
  · intro fw0
    exact or_arpop_and_arpop fw0.arp.invflags
  · intro fw0 inv
    cases inv
    · rfl
    · exact or_arpop_and_arphln fw0.arp.invflags

/-- Witness of C22: the negated comparison with 6 at offset 4, parsed into the
zero record. -/
theorem nft_arp_parse_payload_hln_witness :
    nft_arp_parse_payload [.cmp NFT_CMP_NEQ 6 1] 4 arpt_entry_zero
      = some ({ arpt_entry_zero with arp := { arpt_entry_zero.arp with
          arhln := 6, arhln_mask := 0xff, invflags := ARPT_INV_ARPOP } }, [])
    ∧ (6 : Nat) % 2 ^ 8 = 6 :=
  ⟨by decide,
   (nft_arp_parse_payload_hln arpt_entry_zero NFT_CMP_NEQ 6 1 []).2.1 (by decide)⟩

/-- C23: the hardware-address matches depend on the first byte of the address
only. With every other field of the record fixed, the expressions of
`nft_arp_add` are a fixed list, then the source hardware-address match at
offset 8 exactly when the first byte of the source hardware address is
non-zero, then another fixed list; and likewise for the target hardware address
at offset 8+L+4. Later bytes of an address whose first byte is zero, and the
mask, never lead to an expression. -/
theorem nft_arp_add_devaddr_first_byte (env : nft_shared) (r : List nft_rule_expr)
    (fw : arpt_entry) :
    (∃ A B, ∀ d : arpt_devaddr_info,
      nft_arp_add_matches env r { fw with arp := { fw.arp with src_devaddr := d } }
        = A ++ (if d.addr.getD 0 0 ≠ 0 then
              [.payload 8 fw.arp.arhln,
               .cmp NFT_CMP_EQ (bytes_value d.addr % 2 ^ (8 * fw.arp.arhln)) fw.arp.arhln]
            else []) ++ B)
    ∧ (∃ A B, ∀ d : arpt_devaddr_info,
      nft_arp_add_matches env r { fw with arp := { fw.arp with tgt_devaddr := d } }
        = A ++ (if d.addr.getD 0 0 ≠ 0 then
              [.payload (8 + fw.arp.arhln + 4) fw.arp.arhln,
               .cmp NFT_CMP_EQ (bytes_value d.addr % 2 ^ (8 * fw.arp.arhln)) fw.arp.arhln]
            else []) ++ B)
    ∧ (∀ d : arpt_devaddr_info, d.addr.getD 0 0 = 0 →
      nft_arp_add_matches env r { fw with arp := { fw.arp with src_devaddr := d } }
        = nft_arp_add_matches env r { fw with arp := { fw.arp with src_devaddr := ⟨[], []⟩ } }) := by
  refine ⟨?_, ?_, ?_⟩
  · refine ⟨nft_arp_add_ifaces env r fw
      ++ ((if fw.arp.arhrd ≠ 0 then
            [.payload 0 2, .cmp NFT_CMP_EQ (fw.arp.arhrd % 2 ^ 16) 2] else [])
      ++ ((if fw.arp.arpro ≠ 0 then
            [.payload 2 2, .cmp NFT_CMP_EQ (fw.arp.arpro % 2 ^ 16) 2] else [])
      ++ ((if fw.arp.arhln ≠ 0 then
            [.payload 4 1, .cmp (hln_op fw) (fw.arp.arhln % 2 ^ 8) 1] else [])
      ++ ([.payload 5 1, .cmp NFT_CMP_EQ 4 1]
      ++ (if fw.arp.arpop ≠ 0 then
            [.payload 6 2, .cmp NFT_CMP_EQ (fw.arp.arpop % 2 ^ 16) 2] else []))))),
      (if fw.arp.src ≠ 0 then
            [.payload (8 + fw.arp.arhln) 4, .cmp (addr_op fw) (fw.arp.src % 2 ^ 32) 4] else [])
      ++ ((if fw.arp.tgt_devaddr.addr.getD 0 0 ≠ 0 then
            [.payload (8 + fw.arp.arhln + 4) fw.arp.arhln, .cmp NFT_CMP_EQ
              (bytes_value fw.arp.tgt_devaddr.addr % 2 ^ (8 * fw.arp.arhln)) fw.arp.arhln] else [])
      ++ (if fw.arp.tgt ≠ 0 then
            [.payload (8 + fw.arp.arhln + 4) 4, .cmp (addr_op fw) (fw.arp.tgt % 2 ^ 32) 4]
          else [])), ?_⟩
    intro d
    rw [nft_arp_add_matches_eq]
    simp only [List.append_assoc]
    rfl
  · refine ⟨nft_arp_add_ifaces env r fw
      ++ ((if fw.arp.arhrd ≠ 0 then
            [.payload 0 2, .cmp NFT_CMP_EQ (fw.arp.arhrd % 2 ^ 16) 2] else [])
      ++ ((if fw.arp.arpro ≠ 0 then
            [.payload 2 2, .cmp NFT_CMP_EQ (fw.arp.arpro % 2 ^ 16) 2] else [])
      ++ ((if fw.arp.arhln ≠ 0 then
            [.payload 4 1, .cmp (hln_op fw) (fw.arp.arhln % 2 ^ 8) 1] else [])
      ++ ([.payload 5 1, .cmp NFT_CMP_EQ 4 1]
      ++ ((if fw.arp.arpop ≠ 0 then
            [.payload 6 2, .cmp NFT_CMP_EQ (fw.arp.arpop % 2 ^ 16) 2] else [])
      ++ ((if fw.arp.src_devaddr.addr.getD 0 0 ≠ 0 then
            [.payload 8 fw.arp.arhln, .cmp NFT_CMP_EQ
              (bytes_value fw.arp.src_devaddr.addr % 2 ^ (8 * fw.arp.arhln)) fw.arp.arhln] else [])
      ++ (if fw.arp.src ≠ 0 then
            [.payload (8 + fw.arp.arhln) 4, .cmp (addr_op fw) (fw.arp.src % 2 ^ 32) 4]
          else []))))))),
      (if fw.arp.tgt ≠ 0 then
            [.payload (8 + fw.arp.arhln + 4) 4, .cmp (addr_op fw) (fw.arp.tgt % 2 ^ 32) 4]
          else []), ?_⟩
    intro d
    rw [nft_arp_add_matches_eq]
    simp only [List.append_assoc]
    rfl
  · intro d hd
    rw [nft_arp_add_matches_eq, nft_arp_add_matches_eq]
    have h0 : (([] : List Nat).getD 0 0) = 0 := rfl
    simp only [hd, h0, ne_eq, not_true_eq_false, if_false]
    rfl

/-- Witness of C23: a source hardware address 00:54:00:12:34:56 with an all-ones
mask leads to no expression: the rule gets the expressions of `-j ACCEPT`. -/
theorem nft_arp_add_devaddr_first_byte_witness :
    nft_arp_add_matches env_plain []
        { fw_accept with arp := { fw_accept.arp with
            src_devaddr := ⟨[0, 0x54, 0, 0x12, 0x34, 0x56], [255, 255, 255, 255, 255, 255]⟩ } }
      = nft_arp_add_matches env_plain []
        { fw_accept with arp := { fw_accept.arp with src_devaddr := ⟨[], []⟩ } }
    ∧ nft_arp_add_matches env_plain []
        { fw_accept with arp := { fw_accept.arp with
            src_devaddr := ⟨[0, 0x54, 0, 0x12, 0x34, 0x56], [255, 255, 255, 255, 255, 255]⟩ } }
      = [.payload 5 1, .cmp NFT_CMP_EQ 4 1] :=
  ⟨(nft_arp_add_devaddr_first_byte env_plain [] fw_accept).2.2
      ⟨[0, 0x54, 0, 0x12, 0x34, 0x56], [255, 255, 255, 255, 255, 255]⟩ (by decide),
   by decide⟩

/-! ### The round trip through the expression list -/

end NftArp
